import Mathlib

/-!
# NFCman firmware (`src/firm/NFCcsF.c`): card model, command dispatcher,
ISO14443-A selection, MIFARE-Classic sector access and CRC codec

Shallow embedding.  Bytes (`uint8_t`) are `Fin 256`, `uint16_t` values are
`Fin 65536`, and arithmetic on them is done in `Nat` with the truncation
written out.  Fixed-size C arrays are functions from `Fin n`; an index outside
the array is a fault of the run (`Fault.out_of_bounds`), not a value.  The
command passed to `process_host_command` is the memory from the pointer on,
because the sector copies read past `length`; the frame passed to
`handle_mifare_classic_command`, whose reads all lie below `length`, is the
list of its `length` bytes.  The hardware abstraction layer is an explicit
part of the state: the frames it will deliver, the frames it was asked to
send and a log of the remaining calls and register writes.
-/

namespace NFCman

/-! ## Machine integers -/

/-- A `uint8_t`. -/
abbrev Byte := Fin 256

/-- Conversion to `uint8_t` (truncation to the low 8 bits). -/
def u8 (n : Nat) : Byte := ⟨n % 256, Nat.mod_lt n (by decide)⟩

/-! ## CRC codec: the loop of `send_mifare_response` -/

/-- Body of the `for` loop of `send_mifare_response` on the register `crc`
(`uint16_t`) and the byte `response[i]`; `data` is a `uint8_t`. -/
def crc_update (crc : Nat) (b : Byte) : Nat :=
  let data : Nat := b.val
  let data : Nat := (data ^^^ (crc &&& 0xFF)) % 256
  let data : Nat := (data ^^^ (data <<< 4)) % 256
  ((crc >>> 8) ^^^ (data <<< 8) ^^^ (data <<< 3) ^^^ (data >>> 4)) % 65536

/-- Value of `crc` after the loop of `send_mifare_response` over `response`. -/
def mifare_crc (response : List Byte) : Nat :=
  response.foldl crc_update 0x6363

/-- The two bytes `send_mifare_response` stores behind the response:
`crc & 0xFF`, then `(crc >> 8) & 0xFF`. -/
def crc_bytes (crc : Nat) : List Byte :=
  [u8 (crc &&& 0xFF), u8 ((crc >>> 8) &&& 0xFF)]

/-! ### Reference: bit-serial CRC_A, written from the specification -/

/-- One bit step of the reference: shift right, XOR `0x8408` when the bit
shifted out is set. -/
def crc_a_bit (crc : Nat) : Nat :=
  if crc % 2 = 1 then (crc >>> 1) ^^^ 0x8408 else crc >>> 1

/-- One byte of the reference: XOR the byte in, then eight bit steps. -/
def crc_a_byte (crc : Nat) (b : Byte) : Nat :=
  crc_a_bit^[8] (crc ^^^ b.val)

/-- Reference CRC_A of a byte sequence: register starts at `0x6363`, no final
XOR. -/
def crc_a_reference (bs : List Byte) : Nat :=
  bs.foldl crc_a_byte 0x6363

/-- The reduction of the low byte `t` as `send_mifare_response` computes it. -/
def crc_low (t : Nat) : Nat :=
  let d := (t ^^^ (t <<< 4)) % 256
  (d <<< 8) ^^^ (d <<< 3) ^^^ (d >>> 4)

/-! ## Constants of the firmware -/

/-- A `uint16_t`. -/
abbrev Word := Fin 65536

/-- Conversion to `uint16_t` (truncation to the low 16 bits). -/
def u16 (n : Nat) : Word := ⟨n % 65536, Nat.mod_lt n (by decide)⟩

abbrev NFC_REG_BASE : Nat := 0x40000000
abbrev PROTOCOL_CONFIG_REG : Nat := NFC_REG_BASE + 0x200
abbrev SECURITY_REG : Nat := NFC_REG_BASE + 0x300
abbrev EMULATION_REG : Nat := NFC_REG_BASE + 0x400

abbrev ISO14443A_PROTOCOL : Nat := 0x01

abbrev CMD_INIT_CHIP : Byte := 0x20
abbrev CMD_CONFIG_EMULATION : Byte := 0x24
abbrev CMD_START_EMULATION : Byte := 0x25
abbrev CMD_STOP_EMULATION : Byte := 0x26
abbrev CMD_RAW_PROTOCOL : Byte := 0x30
abbrev CMD_SECURITY_BYPASS : Byte := 0x40
abbrev CMD_FIRMWARE_UPDATE : Byte := 0xF0

abbrev BYPASS_ALL_SECURITY : Byte := 0xFF

abbrev MAX_UID_SIZE : Nat := 10
abbrev MAX_SECTOR_COUNT : Nat := 40
abbrev MAX_BLOCK_SIZE : Nat := 16
abbrev MAX_COMMAND_SIZE : Nat := 256

/-! ## Card model -/

/-- MIFARE Classic sector structure. -/
structure mifare_sector_t where
  key_a : Fin 6 → Byte
  access_bits : Fin 3 → Byte
  key_b : Fin 6 → Byte
  blocks : Fin 4 → Fin MAX_BLOCK_SIZE → Byte
  block_count : Byte

/-- NFC emulation configuration (the type of `g_emulation_config`). -/
structure nfc_emulation_config_t where
  uid : Fin MAX_UID_SIZE → Byte
  uid_size : Byte
  sak : Byte
  atqa : Word
  protocol_mask : Byte
  sectors : Fin MAX_SECTOR_COUNT → mifare_sector_t
  sector_count : Byte
  security_bypass_flags : Byte
  emulation_active : Bool

/-- A sector of zero bytes. -/
def zero_sector : mifare_sector_t :=
  { key_a := fun _ => 0, access_bits := fun _ => 0, key_b := fun _ => 0,
    blocks := fun _ _ => 0, block_count := 0 }

/-- Result of `memset(&g_emulation_config, 0, sizeof(g_emulation_config))`. -/
def zero_config : nfc_emulation_config_t :=
  { uid := fun _ => 0, uid_size := 0, sak := 0, atqa := 0, protocol_mask := 0,
    sectors := fun _ => zero_sector, sector_count := 0,
    security_bypass_flags := 0, emulation_active := false }

/-! ## Firmware state and hardware abstraction layer -/

/-- Effects on the hardware other than sending and receiving frames: the
calls through `g_hal_interface`, the register writes and the byte stores of
the firmware update. -/
inductive HwEvent where
  | init_hardware
  | enable_emulation
  | disable_emulation
  | update_security_config (bypass_flags : Byte)
  | reg_write (addr : Nat) (val : Nat)
  | mem_write (addr : Nat) (val : Byte)

/-- The global state the modelled functions touch.  `rx` holds the frames
the next calls of `g_hal_interface.receive_command` deliver (an empty frame,
or an exhausted list, means the call returns 0); `tx` holds the frames handed
to `g_hal_interface.send_response`, oldest first.  `g_response_buffer` is
not part of the state: every byte of it that is sent is written on the same
path right before the send. -/
structure FwState where
  cfg : nfc_emulation_config_t
  cmdbuf : Fin MAX_COMMAND_SIZE → Byte
  rx : List (List Byte)
  tx : List (List Byte)
  hw : List HwEvent

/-- Ways a run leaves the defined behaviour of the model: an array of
`g_emulation_config` indexed outside its bounds (undefined in C), or the
iteration bound of the session loop used up. -/
inductive Fault where
  | out_of_bounds
  | out_of_fuel

/-- The HAL call `receive_command(g_command_buffer, MAX_COMMAND_SIZE)`: the
next frame, cut to `MAX_COMMAND_SIZE` bytes, is stored at the start of
`g_command_buffer`; the bytes behind it keep their old value.  The second
component is the received data, whose length is the returned count. -/
def receive_command (s : FwState) : FwState × List Byte :=
  match s.rx with
  | [] => (s, [])
  | f :: rest =>
    ({ s with rx := rest,
              cmdbuf := fun j => (f.take MAX_COMMAND_SIZE).getD j.val (s.cmdbuf j) },
     f.take MAX_COMMAND_SIZE)

/-- The HAL call `send_response(data, length)`. -/
def send_response (s : FwState) (data : List Byte) : FwState :=
  { s with tx := s.tx ++ [data] }

/-! ## Command dispatcher -/

/-- The copies into `g_emulation_config.sectors[i]` made by one iteration of
the sector loop of `process_host_command`. -/
def copy_sector (sector : mifare_sector_t) (payload : Nat → Byte) (sector_offset : Nat) :
    mifare_sector_t :=
  { sector with
    key_a := fun j => payload (sector_offset + j.val)
    access_bits := fun j => payload (sector_offset + 6 + j.val)
    key_b := fun j => payload (sector_offset + 9 + j.val)
    block_count := 4
    blocks := fun block j => payload (sector_offset + 15 + block.val * 16 + j.val) }

/-- The sector loop of `process_host_command`, `for (i = 0; i < sector_count
&& i < MAX_SECTOR_COUNT; i++)`, from iteration `i` on; the first argument
bounds the number of iterations left (the loop makes at most
`MAX_SECTOR_COUNT`).  Returns the sectors and `response_status`.
`sector_offset` stays below `2^16`. -/
def sector_loop (payload : Nat → Byte) (payload_length sector_count : Nat) :
    Nat → Nat → Nat → (Fin MAX_SECTOR_COUNT → mifare_sector_t) → Byte →
    (Fin MAX_SECTOR_COUNT → mifare_sector_t) × Byte
  | 0, _, _, sectors, response_status => (sectors, response_status)
  | n + 1, i, sector_offset, sectors, response_status =>
    if h : i < sector_count ∧ i < MAX_SECTOR_COUNT then
      if sector_offset + 75 ≤ payload_length then
        sector_loop payload payload_length sector_count n (i + 1) (sector_offset + 75)
          (Function.update sectors ⟨i, h.2⟩ (copy_sector (sectors ⟨i, h.2⟩) payload sector_offset))
          response_status
      else (sectors, 0x01)
    else (sectors, response_status)

/-- The header copies of the `CMD_CONFIG_EMULATION` case of
`process_host_command`: UID size and bytes (`memcpy` of `uid_length` bytes),
SAK, ATQA (low byte first) and sector count. -/
def config_header (cfg : nfc_emulation_config_t) (payload : Nat → Byte) :
    nfc_emulation_config_t :=
  let uid_length : Nat := (payload 0).val
  { cfg with
    uid_size := payload 0
    uid := fun j => if j.val < uid_length then payload (1 + j.val) else cfg.uid j
    sak := payload (1 + uid_length)
    atqa := u16 ((payload (1 + uid_length + 1)).val |||
                 ((payload (1 + uid_length + 2)).val <<< 8))
    sector_count := payload (1 + uid_length + 3) }

/-- The `switch` of `process_host_command`: the state after it and
`response_status`.  `payload_length` is `length - 1` in `uint16_t`. -/
def host_command_switch (s : FwState) (cmd_id : Byte) (payload : Nat → Byte)
    (payload_length : Nat) : FwState × Byte :=
  if cmd_id = CMD_INIT_CHIP then
    ({ s with hw := s.hw ++ [HwEvent.init_hardware] }, 0x00)
  else if cmd_id = CMD_CONFIG_EMULATION then
    if payload_length ≥ 3 then
      let uid_length : Nat := (payload 0).val
      if uid_length ≤ MAX_UID_SIZE ∧ payload_length ≥ 1 + uid_length + 4 then
        let cfg1 : nfc_emulation_config_t := config_header s.cfg payload
        let r := sector_loop payload payload_length cfg1.sector_count.val
          MAX_SECTOR_COUNT 0 (1 + uid_length + 4) cfg1.sectors 0x00
        ({ s with cfg := { cfg1 with sectors := r.1 } }, r.2)
      else (s, 0x01)
    else (s, 0x01)
  else if cmd_id = CMD_START_EMULATION then
    ({ s with hw := s.hw ++ [HwEvent.enable_emulation],
              cfg := { s.cfg with emulation_active := true } }, 0x00)
  else if cmd_id = CMD_STOP_EMULATION then
    ({ s with hw := s.hw ++ [HwEvent.disable_emulation],
              cfg := { s.cfg with emulation_active := false } }, 0x00)
  else if cmd_id = CMD_RAW_PROTOCOL then
    if payload_length > 0 then
      let writes : List HwEvent :=
        HwEvent.reg_write PROTOCOL_CONFIG_REG (payload 0).val ::
          (List.range (payload_length - 1)).map
            (fun i => HwEvent.reg_write (PROTOCOL_CONFIG_REG + 4) (payload (1 + i)).val)
      ({ s with hw := s.hw ++ writes }, 0x00)
    else (s, 0x00)
  else if cmd_id = CMD_SECURITY_BYPASS then
    if payload_length ≥ 1 then
      ({ s with cfg := { s.cfg with security_bypass_flags := payload 0 },
                hw := s.hw ++ [HwEvent.update_security_config (payload 0)] }, 0x00)
    else (s, 0x00)
  else if cmd_id = CMD_FIRMWARE_UPDATE then
    if payload_length ≥ 4 then
      let update_address : Nat :=
        ((payload 0).val ||| ((payload 1).val <<< 8) |||
          ((payload 2).val <<< 16) ||| ((payload 3).val <<< 24)) % 2 ^ 32
      let update_length : Nat := payload_length - 4
      let writes : List HwEvent := (List.range update_length).map
        (fun i => HwEvent.mem_write (update_address + i) (payload (4 + i)))
      ({ s with hw := s.hw ++ writes }, 0x00)
    else (s, 0x00)
  else (s, 0xFF)

/-- Process commands from host processor: `process_host_command(command,
length)`.  `command` is the memory from the pointer on (`command i` is
`command[i]`), `length` the `uint16_t` argument; `payload` is `&command[1]`.
The stores of the firmware update are logged in `hw`; they are taken not to
hit the firmware's own variables. -/
def process_host_command (s : FwState) (command : Nat → Byte) (length : Word) : FwState :=
  let cmd_id : Byte := command 0
  let payload : Nat → Byte := fun k => command (1 + k)
  let payload_length : Nat := (length.val + 65535) % 65536
  let r := host_command_switch s cmd_id payload payload_length
  send_response r.1 [cmd_id, r.2]

/-! ## MIFARE Classic sector access -/

/-- Send MIFARE Classic response with CRC: `send_mifare_response(response,
length)` with `response` the `length` bytes at the pointer. -/
def send_mifare_response (s : FwState) (response : List Byte) : FwState :=
  send_response s (response ++ crc_bytes (mifare_crc response))

/-- Handle MIFARE Classic protocol commands:
`handle_mifare_classic_command(command, length)` with `command` the `length`
bytes at the pointer.  In the authentication case the key pointer is computed
and never read. -/
def handle_mifare_classic_command (s : FwState) (command : List Byte) :
    Except Fault FwState :=
  if command.length < 1 then .ok s else
  let cmd : Byte := command.getD 0 0
  if cmd = 0x60 ∨ cmd = 0x61 then
    if command.length ≥ 4 then
      let block_addr : Byte := command.getD 1 0
      let sector : Nat := block_addr.val / 4
      if sector < s.cfg.sector_count.val then
        .ok (send_mifare_response s [0x00, 0x00, 0x00, 0x00])
      else
        .ok (send_mifare_response s [0x04])
    else .ok s
  else if cmd = 0x30 then
    if command.length ≥ 2 then
      let block_addr : Byte := command.getD 1 0
      let sector : Nat := block_addr.val / 4
      let block : Fin 4 := ⟨block_addr.val % 4, Nat.mod_lt _ (by decide)⟩
      if sector < s.cfg.sector_count.val ∧ block.val < 4 then
        if h : sector < MAX_SECTOR_COUNT then
          .ok (send_mifare_response s (List.ofFn ((s.cfg.sectors ⟨sector, h⟩).blocks block)))
        else .error Fault.out_of_bounds
      else
        .ok (send_mifare_response s [0x04])
    else .ok s
  else if cmd = 0xA0 then
    if command.length ≥ 2 then
      let block_addr : Byte := command.getD 1 0
      let s1 := send_mifare_response s [0x0A]
      let s2 := (receive_command s1).1
      let data_length : Nat := (receive_command s1).2.length
      if data_length ≥ 16 then
        let sector : Nat := block_addr.val / 4
        let block : Fin 4 := ⟨block_addr.val % 4, Nat.mod_lt _ (by decide)⟩
        if sector < s2.cfg.sector_count.val ∧ block.val < 4 then
          if h : sector < MAX_SECTOR_COUNT then
            let target_sector := s2.cfg.sectors ⟨sector, h⟩
            let written : mifare_sector_t :=
              { target_sector with
                blocks := Function.update target_sector.blocks block
                  (fun j => s2.cmdbuf (Fin.castLE (by decide) j)) }
            .ok (send_mifare_response
              { s2 with cfg := { s2.cfg with
                  sectors := Function.update s2.cfg.sectors ⟨sector, h⟩ written } }
              [0x0A])
          else .error Fault.out_of_bounds
        else
          .ok (send_mifare_response s2 [0x04])
      else .ok s2
    else .ok s
  else
    .ok (send_mifare_response s [0x04])

/-! ## Protocol state machine -/

/-- The first loop of `handle_card_selection`, `for (i = 0; i < uid_size;
i++)`, with `n` iterations left from index `i`: the bytes stored in the
response buffer so far and the running `bcc`. -/
def bcc_loop (uid : Fin MAX_UID_SIZE → Byte) :
    Nat → Nat → List Byte → Byte → Except Fault (List Byte × Byte)
  | 0, _, response, bcc => .ok (response, bcc)
  | n + 1, i, response, bcc =>
    if h : i < MAX_UID_SIZE then
      bcc_loop uid n (i + 1) (response ++ [uid ⟨i, h⟩]) (u8 (bcc.val ^^^ (uid ⟨i, h⟩).val))
    else .error Fault.out_of_bounds

/-- The UID comparison loop of `handle_card_selection` with `n` iterations
left from index `i`: the final `uid_match`. -/
def uid_match_loop (cmdbuf : Fin MAX_COMMAND_SIZE → Byte) (uid : Fin MAX_UID_SIZE → Byte) :
    Nat → Nat → Except Fault Bool
  | 0, _ => .ok true
  | n + 1, i =>
    if h : i < MAX_UID_SIZE then
      if cmdbuf ⟨2 + i, Nat.lt_of_lt_of_le (Nat.add_lt_add_left h 2) (by decide)⟩ ≠ uid ⟨i, h⟩ then
        .ok false
      else uid_match_loop cmdbuf uid n (i + 1)
    else .error Fault.out_of_bounds

/-- The `while (1)` loop of `handle_card_selection` (the card is selected),
with a bound on the number of iterations. -/
def selected_loop : Nat → FwState → Except Fault FwState
  | 0, _ => .error Fault.out_of_fuel
  | fuel + 1, s =>
    let s1 := (receive_command s).1
    let command := (receive_command s).2
    if command.length > 0 then
      if s1.cfg.sak = 0x08 then
        match handle_mifare_classic_command s1 command with
        | .ok s2 => selected_loop fuel s2
        | .error e => .error e
      else .ok s1
    else .ok s1

/-- Handle card selection (anticollision) process:
`handle_card_selection(uid, uid_size)`.  Every iteration of the session loop
takes a frame from `rx`, so one more iteration than there are frames is
enough. -/
def handle_card_selection (s : FwState) (uid : Fin MAX_UID_SIZE → Byte) (uid_size : Byte) :
    Except Fault FwState :=
  match bcc_loop uid uid_size.val 0 [] 0 with
  | .error e => .error e
  | .ok r =>
    let s1 := send_response s (r.1 ++ [r.2])
    let s2 := (receive_command s1).1
    let command_length : Nat := (receive_command s1).2.length
    if command_length ≥ 7 ∧ s2.cmdbuf 0 = 0x93 ∧ s2.cmdbuf 1 = 0x70 then
      match uid_match_loop s2.cmdbuf uid uid_size.val 0 with
      | .error e => .error e
      | .ok uid_match =>
        if uid_match then
          let s3 := send_response s2 [s2.cfg.sak]
          selected_loop (s3.rx.length + 1) s3
        else .ok s2
    else .ok s2

/-- Handle RF field detection and card selection: `handle_rf_field_event`. -/
def handle_rf_field_event (s : FwState) : Except Fault FwState :=
  if ¬ s.cfg.emulation_active then .ok s else
  let s1 := (receive_command s).1
  let command_length : Nat := (receive_command s).2.length
  if command_length ≥ 1 then
    let command : Byte := s1.cmdbuf 0
    if command = 0x26 ∨ command = 0x52 then
      let s2 := send_response s1 [u8 (s1.cfg.atqa.val &&& 0xFF), u8 ((s1.cfg.atqa.val >>> 8) &&& 0xFF)]
      let s3 := (receive_command s2).1
      let command_length : Nat := (receive_command s2).2.length
      if command_length ≥ 2 ∧ s3.cmdbuf 0 = 0x93 ∧ s3.cmdbuf 1 = 0x20 then
        handle_card_selection s3 s3.cfg.uid s3.cfg.uid_size
      else .ok s3
    else .ok s1
  else .ok s1

/-! ## Recovery -/

/-- Emergency firmware recovery: `emergency_firmware_recovery`. -/
def emergency_firmware_recovery (s : FwState) : FwState :=
  { s with
    hw := s.hw ++ [HwEvent.reg_write (NFC_REG_BASE + 0x00) 0x01,
                   HwEvent.reg_write SECURITY_REG 0x00,
                   HwEvent.reg_write EMULATION_REG 0x00,
                   HwEvent.reg_write PROTOCOL_CONFIG_REG ISO14443A_PROTOCOL]
    cfg := { zero_config with emulation_active := false } }

/-- The configuration `nfc_firmware_entry` sets up before the main loop:
`memset` to zero, then `security_bypass_flags = BYPASS_ALL_SECURITY`. -/
def boot_config : nfc_emulation_config_t :=
  { zero_config with security_bypass_flags := BYPASS_ALL_SECURITY }

/-- The data model invariant of the emulated card. -/
def card_invariant (cfg : nfc_emulation_config_t) : Prop :=
  cfg.uid_size.val ≤ MAX_UID_SIZE ∧ cfg.sector_count.val ≤ MAX_SECTOR_COUNT

instance (cfg : nfc_emulation_config_t) : Decidable (card_invariant cfg) := by
  unfold card_invariant; infer_instance

/-- A firmware state with the zero-initialised card, an all-zero command
buffer, no frame pending and nothing sent. -/
def zero_state : FwState :=
  { cfg := zero_config, cmdbuf := fun _ => 0, rx := [], tx := [], hw := [] }

/-! ## Definitions used to state the properties -/

/-- A transmitted frame that is a 1-, 4- or 16-byte response body followed
by the CRC_A of the body, low byte first. -/
def crc_framed (frame : List Byte) : Prop :=
  ∃ body : List Byte, (body.length = 1 ∨ body.length = 4 ∨ body.length = 16) ∧
    frame.length = body.length + 2 ∧
    frame.map Fin.val =
      body.map Fin.val ++ [crc_a_reference body &&& 0xFF, crc_a_reference body >>> 8]

/-- The frames sent so far when the run stays within defined behaviour. -/
def tx_of (r : Except Fault FwState) : Option (List (List Byte)) :=
  match r with
  | .ok s => some s.tx
  | .error _ => none

/-- Memory that holds the bytes of `l` followed by the byte `fill` for ever:
a command buffer with `l` at its start. -/
def mem_of_list (l : List Byte) (fill : Byte) : Nat → Byte :=
  fun i => l.getD i fill

/-- The first `n` bytes of the UID array. -/
def uid_bytes (uid : Fin MAX_UID_SIZE → Byte) (n : Nat) : List Byte :=
  (List.ofFn uid).take n

/-- XOR of the bytes of a list (the block check character over it). -/
def bcc_of (l : List Byte) : Byte :=
  l.foldl (fun bcc x => u8 (bcc.val ^^^ x.val)) 0

/-! ## Parts of the selection handlers -/

/-- The command buffer after the HAL stored the frame `f` at its start. -/
def load_frame (buf : Fin MAX_COMMAND_SIZE → Byte) (f : List Byte) :
    Fin MAX_COMMAND_SIZE → Byte :=
  fun j => (f.take MAX_COMMAND_SIZE).getD j.val (buf j)

/-- The state after `receive_command` took the frame `f` from the queue and
left the frames `rest` pending. -/
def deliver (s : FwState) (f : List Byte) (rest : List (List Byte)) : FwState :=
  { s with rx := rest, cmdbuf := load_frame s.cmdbuf f }

/-- The part of `handle_rf_field_event` after the ATQA is sent: the wait for
the anticollision frame. -/
def await_anticollision (s2 : FwState) : Except Fault FwState :=
  let s3 := (receive_command s2).1
  let command_length : Nat := (receive_command s2).2.length
  if command_length ≥ 2 ∧ s3.cmdbuf 0 = 0x93 ∧ s3.cmdbuf 1 = 0x20 then
    handle_card_selection s3 s3.cfg.uid s3.cfg.uid_size
  else .ok s3

/-- The part of `handle_card_selection` after the UID and BCC are sent: the
wait for the SELECT frame, the UID comparison, the SAK and the session loop. -/
def await_select (s1 : FwState) (uid : Fin MAX_UID_SIZE → Byte) (uid_size : Byte) :
    Except Fault FwState :=
  let s2 := (receive_command s1).1
  let command_length : Nat := (receive_command s1).2.length
  if command_length ≥ 7 ∧ s2.cmdbuf 0 = 0x93 ∧ s2.cmdbuf 1 = 0x70 then
    match uid_match_loop s2.cmdbuf uid uid_size.val 0 with
    | .error e => .error e
    | .ok uid_match =>
      if uid_match then
        let s3 := send_response s2 [s2.cfg.sak]
        selected_loop (s3.rx.length + 1) s3
      else .ok s2
  else .ok s2

/-- The two bytes `handle_rf_field_event` sends as ATQA. -/
def atqa_bytes (cfg : nfc_emulation_config_t) : List Byte :=
  [u8 (cfg.atqa.val &&& 0xFF), u8 ((cfg.atqa.val >>> 8) &&& 0xFF)]

/-! ## Concrete inputs -/

/-- A configuration command: no UID, SAK 0x08, ATQA 0x0004, one declared
sector and its 75-byte record of bytes 0x11 (81 bytes). -/
def one_sector_command : List Byte :=
  [0x24, 0x00, 0x08, 0x04, 0x00, 0x01] ++ List.replicate 75 0x11

/-- A configuration command: no UID, SAK 0x08, ATQA 0x0004, two declared
sectors, one complete 75-byte record of bytes 0x11 and the first 10 bytes,
0x22, of a second record (91 bytes). -/
def partial_command : List Byte :=
  [0x24, 0x00, 0x08, 0x04, 0x00, 0x02] ++ List.replicate 75 0x11 ++ List.replicate 10 0x22

/-- A configuration command: no UID, SAK 0x08, ATQA 0x0004, 255 declared
sectors and no record (6 bytes). -/
def oversized_count_command : List Byte :=
  [0x24, 0x00, 0x08, 0x04, 0x00, 0xFF]

/-- The 16 data bytes 0x01..0x10. -/
def write_data : List Byte :=
  [0x01, 0x02, 0x03, 0x04, 0x05, 0x06, 0x07, 0x08,
   0x09, 0x0A, 0x0B, 0x0C, 0x0D, 0x0E, 0x0F, 0x10]

/-- A card with two configured sectors and `write_data` pending as the next
received frame. -/
def write_read_state : FwState :=
  { zero_state with
    cfg := { zero_config with sector_count := 2, sak := 0x08 }
    rx := [write_data] }

/-- A card with UID AA BB CC DD (`uid_size` 4) and SAK 0x08. -/
def aabbccdd_config : nfc_emulation_config_t :=
  { zero_config with
    uid := fun j => [0xAA, 0xBB, 0xCC, 0xDD].getD j.val 0
    uid_size := 4
    sak := 0x08 }

/-- The card of `aabbccdd_config` with the given frames pending. -/
def aabbccdd_state (rx : List (List Byte)) : FwState :=
  { zero_state with cfg := aabbccdd_config, rx := rx }

/-- The 7-byte SELECT frame 93 70 AA BB CC DD 00 (UID and its BCC). -/
def select_frame : List Byte := [0x93, 0x70, 0xAA, 0xBB, 0xCC, 0xDD, 0x00]

/-- The card of `aabbccdd_config` with emulation started and the given frames
pending. -/
def aabbccdd_active (rx : List (List Byte)) : FwState :=
  { zero_state with cfg := { aabbccdd_config with emulation_active := true }, rx := rx }

/-- The active card with UID AA BB CC DD and the frames REQA (26) and
anticollision (93 20) pending. -/
def selection_state : FwState := aabbccdd_active [[0x26], [0x93, 0x20]]

/-- A configuration command without UID and without sectors: SAK 0x08, ATQA
bytes 0x44 0x03 (6 bytes). -/
def atqa_command : List Byte := [0x24, 0x00, 0x08, 0x44, 0x03, 0x00]

/-- The zero card after `atqa_command`, with emulation started and a REQA
frame pending. -/
def atqa_state : FwState :=
  { zero_state with
    cfg := { (process_host_command zero_state (mem_of_list atqa_command 0x00) 6).cfg with
             emulation_active := true }
    rx := [[0x26]] }

/-- A SELECT frame for UID AA BB CC DE: the last UID byte differs from the
emulated AA BB CC DD. -/
def wrong_select_frame : List Byte := [0x93, 0x70, 0xAA, 0xBB, 0xCC, 0xDE, 0x00]

/-- A card like `write_read_state` with other keys stored in sector 0. -/
def other_keys_state : FwState :=
  { write_read_state with
    cfg := { write_read_state.cfg with
      sectors := fun _ => { zero_sector with key_a := fun _ => 0xFF, key_b := fun _ => 0xA5 } } }

/-- A selected card with two sectors and SAK 0x08, with the frames 50 00
(unknown opcode) and 30 00 (Read of block 0) pending. -/
def session_state : FwState :=
  { write_read_state with rx := [[0x50, 0x00], [0x30, 0x00]] }

/-- The card left by `oversized_count_command` (`sector_count = 255`), with
`write_data` pending as the next received frame. -/
def oversized_state : FwState :=
  { process_host_command zero_state (mem_of_list oversized_count_command 0x00) 6 with
    rx := [write_data] }

/-- A configuration command with the 10-byte UID 01 02 04 08 10 20 40 80 1B
36, SAK 0x08, ATQA 0x0004 and no sector (16 bytes). -/
def ten_byte_uid_command : List Byte :=
  [0x24, 0x0A, 0x01, 0x02, 0x04, 0x08, 0x10, 0x20, 0x40, 0x80, 0x1B, 0x36,
   0x08, 0x04, 0x00, 0x00]

/-- A 7-byte SELECT frame that carries only the first five bytes of the
10-byte UID of `ten_byte_uid_command`. -/
def truncated_select_frame : List Byte := [0x93, 0x70, 0x01, 0x02, 0x04, 0x08, 0x10]

/-- The zero card after the host commands `ten_byte_uid_command` and
StartEmulation (25), with the command buffer holding what
`receive_command` stored for these two commands, and the frames REQA,
anticollision and `truncated_select_frame` pending. -/
def stale_buffer_state : FwState :=
  { process_host_command
      (process_host_command zero_state (mem_of_list ten_byte_uid_command 0x00) 16)
      (mem_of_list [0x25] 0x00) 1 with
    cmdbuf := load_frame (load_frame zero_state.cmdbuf ten_byte_uid_command) [0x25]
    rx := [[0x26], [0x93, 0x20], truncated_select_frame] }

/-! # Lemmas and theorems -/

/-! ## CRC lemmas -/

theorem crc_a_bit_eq (x : Nat) :
    crc_a_bit x = (x >>> 1) ^^^ (if x % 2 = 1 then 0x8408 else 0) := by
  unfold crc_a_bit
  split <;> simp

theorem crc_a_bit_xor (x y : Nat) :
    crc_a_bit (x ^^^ y) = crc_a_bit x ^^^ crc_a_bit y := by
  have hs : (x ^^^ y) >>> 1 = (x >>> 1) ^^^ (y >>> 1) := by
    simp only [Nat.shiftRight_eq_div_pow, pow_one, Nat.xor_div_two]
  have hm : (x ^^^ y) % 2 = (x + y) % 2 := Nat.xor_mod_two_eq
  rw [crc_a_bit_eq, crc_a_bit_eq x, crc_a_bit_eq y, hs, hm]
  rcases Nat.mod_two_eq_zero_or_one x with hx | hx <;>
    rcases Nat.mod_two_eq_zero_or_one y with hy | hy
  · have : (x + y) % 2 = 0 := by omega
    simp [hx, hy, this]
  · have : (x + y) % 2 = 1 := by omega
    simp [hx, hy, this, Nat.xor_assoc]
  · have : (x + y) % 2 = 1 := by omega
    simp only [hx, hy, this, if_true]
    simp only [Nat.xor_assoc, Nat.xor_comm 0x8408]
    simp
  · have : (x + y) % 2 = 0 := by omega
    simp only [hx, hy, this, if_true]
    have e : ∀ a b c : Nat, (a ^^^ c) ^^^ (b ^^^ c) = a ^^^ b := by
      intro a b c
      rw [Nat.xor_assoc, Nat.xor_comm b c, ← Nat.xor_assoc c, Nat.xor_self, Nat.zero_xor]
    simp [e]

theorem crc_a_bit_iter_xor (k x y : Nat) :
    crc_a_bit^[k] (x ^^^ y) = crc_a_bit^[k] x ^^^ crc_a_bit^[k] y := by
  induction k generalizing x y with
  | zero => rfl
  | succ k ih => simp only [Function.iterate_succ, Function.comp_apply, crc_a_bit_xor, ih]

theorem crc_a_bit_double (m : Nat) : crc_a_bit (2 * m) = m := by
  unfold crc_a_bit
  have h : (2 * m) % 2 ≠ 1 := by omega
  simp only [h, if_false, Nat.shiftRight_eq_div_pow, pow_one]
  omega

theorem crc_a_bit_iter_shift (k m : Nat) : crc_a_bit^[k] (m * 2 ^ k) = m := by
  induction k with
  | zero => simp
  | succ k ih =>
    have e : m * 2 ^ (k + 1) = 2 * (m * 2 ^ k) := by ring
    rw [Function.iterate_succ, Function.comp_apply, e, crc_a_bit_double, ih]

set_option maxRecDepth 1000000 in
theorem crc_low_table : ∀ t : Fin 256,
    crc_a_bit^[8] t.val = crc_low t.val ∧ crc_low t.val < 65536 := by
  unfold crc_low
  decide

theorem split_low8 (x : Nat) : x = ((x >>> 8) <<< 8) ^^^ (x % 2 ^ 8) := by
  apply Nat.eq_of_testBit_eq
  intro i
  simp only [Nat.testBit_xor, Nat.testBit_shiftLeft, Nat.testBit_shiftRight,
    Nat.testBit_mod_two_pow]
  by_cases h : i < 8
  · have h2 : ¬ (i ≥ 8) := by omega
    simp [h, h2]
  · have h2 : i ≥ 8 := by omega
    have h3 : 8 + (i - 8) = i := by omega
    simp [h, h2, h3]

theorem crc_a_bit_iter8 (x : Nat) :
    crc_a_bit^[8] x = (x >>> 8) ^^^ crc_a_bit^[8] (x % 2 ^ 8) := by
  conv_lhs => rw [split_low8 x]
  rw [crc_a_bit_iter_xor, Nat.shiftLeft_eq, crc_a_bit_iter_shift]

theorem xor_byte_shift (crc : Nat) (b : Nat) (hb : b < 256) :
    (crc ^^^ b) >>> 8 = crc >>> 8 := by
  apply Nat.eq_of_testBit_eq
  intro i
  have : b.testBit (8 + i) = false :=
    Nat.testBit_lt_two_pow (Nat.lt_of_lt_of_le hb (by
      calc 256 = 2 ^ 8 := by norm_num
        _ ≤ 2 ^ (8 + i) := Nat.pow_le_pow_right (by norm_num) (by omega)))
  simp [Nat.testBit_shiftRight, Nat.testBit_xor, this]

theorem xor_byte_low (crc : Nat) (b : Nat) :
    (crc ^^^ b) % 2 ^ 8 = (b ^^^ (crc &&& 0xFF)) % 256 := by
  apply Nat.eq_of_testBit_eq
  intro i
  have e1 : (256 : Nat) = 2 ^ 8 := by norm_num
  have e2 : (0xFF : Nat) = 2 ^ 8 - 1 := by norm_num
  rw [e1, e2, Nat.and_pow_two_sub_one_eq_mod]
  simp only [Nat.testBit_mod_two_pow, Nat.testBit_xor]
  by_cases h : i < 8
  · simp [h, Bool.xor_comm]
  · simp [h]

theorem crc_update_eq_ref (crc : Nat) (hc : crc < 65536) (b : Byte) :
    crc_update crc b = crc_a_byte crc b := by
  unfold crc_update crc_a_byte
  rw [crc_a_bit_iter8, xor_byte_shift crc b.val b.isLt, xor_byte_low crc b.val]
  have ht : (b.val ^^^ (crc &&& 0xFF)) % 256 < 256 := Nat.mod_lt _ (by decide)
  obtain ⟨h1, h2⟩ := crc_low_table ⟨(b.val ^^^ (crc &&& 0xFF)) % 256, ht⟩
  simp only at h1 h2
  rw [h1]
  unfold crc_low at h2 ⊢
  simp only [Nat.xor_assoc] at h2 ⊢
  apply Nat.mod_eq_of_lt
  have hs : crc >>> 8 < 2 ^ 16 := by
    rw [Nat.shiftRight_eq_div_pow]
    exact Nat.lt_of_le_of_lt (Nat.div_le_self _ _) (by simpa using hc)
  exact Nat.xor_lt_two_pow hs (by simpa using h2)

theorem crc_update_lt (crc : Nat) (b : Byte) : crc_update crc b < 65536 :=
  Nat.mod_lt _ (by decide)

theorem foldl_crc_eq_ref (bs : List Byte) (crc : Nat) (hc : crc < 65536) :
    bs.foldl crc_update crc = bs.foldl crc_a_byte crc := by
  induction bs generalizing crc with
  | nil => rfl
  | cons b bs ih =>
    simp only [List.foldl_cons]
    rw [← crc_update_eq_ref crc hc b]
    exact ih _ (crc_update_lt crc b)

theorem mifare_crc_eq_ref (bs : List Byte) : mifare_crc bs = crc_a_reference bs :=
  foldl_crc_eq_ref bs 0x6363 (by decide)

theorem foldl_crc_lt (bs : List Byte) (crc : Nat) (hc : crc < 65536) :
    bs.foldl crc_update crc < 65536 := by
  induction bs generalizing crc with
  | nil => exact hc
  | cons b bs ih => exact ih _ (crc_update_lt crc b)

theorem mifare_crc_lt (bs : List Byte) : mifare_crc bs < 65536 :=
  foldl_crc_lt bs 0x6363 (by decide)

theorem crc_bytes_val (c : Nat) (hc : c < 65536) :
    (crc_bytes c).map Fin.val = [c &&& 0xFF, c >>> 8] := by
  have e2 : (0xFF : Nat) = 2 ^ 8 - 1 := by norm_num
  have h8 : c >>> 8 < 256 := by
    rw [Nat.shiftRight_eq_div_pow]; omega
  simp only [crc_bytes, u8, List.map_cons, List.map_nil, e2, Nat.and_pow_two_sub_one_eq_mod]
  congr 1
  · omega
  · congr 1
    omega

theorem crc_framed_send (body : List Byte)
    (hb : body.length = 1 ∨ body.length = 4 ∨ body.length = 16) :
    crc_framed (body ++ crc_bytes (mifare_crc body)) := by
  refine ⟨body, hb, by simp [crc_bytes], ?_⟩
  rw [List.map_append, crc_bytes_val _ (mifare_crc_lt body), mifare_crc_eq_ref]

theorem crc_framed_mem1 (body : List Byte)
    (hb : body.length = 1 ∨ body.length = 4 ∨ body.length = 16) :
    ∀ f ∈ [body ++ crc_bytes (mifare_crc body)], crc_framed f := by
  intro f hf
  rw [List.mem_singleton] at hf
  subst hf
  exact crc_framed_send body hb

theorem crc_framed_mem2 (b1 b2 : List Byte)
    (h1 : b1.length = 1 ∨ b1.length = 4 ∨ b1.length = 16)
    (h2 : b2.length = 1 ∨ b2.length = 4 ∨ b2.length = 16) :
    ∀ f ∈ [b1 ++ crc_bytes (mifare_crc b1)] ++ [b2 ++ crc_bytes (mifare_crc b2)],
      crc_framed f := by
  intro f hf
  rw [List.mem_append, List.mem_singleton, List.mem_singleton] at hf
  rcases hf with hf | hf <;> subst hf
  · exact crc_framed_send b1 h1
  · exact crc_framed_send b2 h2

@[simp] theorem receive_command_tx (s : FwState) : (receive_command s).1.tx = s.tx := by
  unfold receive_command; split <;> rfl

@[simp] theorem receive_command_cfg (s : FwState) : (receive_command s).1.cfg = s.cfg := by
  unfold receive_command; split <;> rfl

@[simp] theorem receive_command_hw (s : FwState) : (receive_command s).1.hw = s.hw := by
  unfold receive_command; split <;> rfl

@[simp] theorem send_mifare_response_tx (s : FwState) (r : List Byte) :
    (send_mifare_response s r).tx = s.tx ++ [r ++ crc_bytes (mifare_crc r)] := rfl

@[simp] theorem send_mifare_response_cfg (s : FwState) (r : List Byte) :
    (send_mifare_response s r).cfg = s.cfg := rfl

/-! ## C1, C2: CRC codec and framing -/

/-- C1: the CRC register computed by the byte-wise loop of
`send_mifare_response` equals the bit-serial CRC_A reference on every byte
sequence, the frame sent carries that register low byte first, the empty
sequence gives 0x6363 (bytes 0x63, 0x63) and ASCII "123456789" gives 0xBF05
(bytes 0x05, 0xBF). -/
theorem mifare_crc_refines_crc_a :
    (∀ response : List Byte, mifare_crc response = crc_a_reference response) ∧
    (∀ (s : FwState) (response : List Byte),
      (send_mifare_response s response).tx =
        s.tx ++ [response ++ [u8 (crc_a_reference response &&& 0xFF),
                              u8 ((crc_a_reference response >>> 8) &&& 0xFF)]]) ∧
    mifare_crc [] = 0x6363 ∧
    crc_bytes (mifare_crc []) = [0x63, 0x63] ∧
    mifare_crc [0x31, 0x32, 0x33, 0x34, 0x35, 0x36, 0x37, 0x38, 0x39] = 0xBF05 ∧
    crc_bytes (mifare_crc [0x31, 0x32, 0x33, 0x34, 0x35, 0x36, 0x37, 0x38, 0x39]) =
      [0x05, 0xBF] := by
  refine ⟨mifare_crc_eq_ref, ?_, by decide, by decide, by decide, by decide⟩
  intro s response
  rw [send_mifare_response_tx, mifare_crc_eq_ref]
  rfl

theorem host_command_switch_tx (s : FwState) (cmd_id : Byte) (payload : Nat → Byte)
    (payload_length : Nat) :
    (host_command_switch s cmd_id payload payload_length).1.tx = s.tx := by
  unfold host_command_switch
  dsimp only
  split_ifs <;> rfl

theorem process_host_command_tx (s : FwState) (command : Nat → Byte) (length : Word) :
    (process_host_command s command length).tx =
      s.tx ++ [[command 0,
        (host_command_switch s (command 0) (fun k => command (1 + k))
          ((length.val + 65535) % 65536)).2]] := by
  simp only [process_host_command, send_response, host_command_switch_tx]

/-- C2: every frame `handle_mifare_classic_command` transmits is a 1-, 4- or
16-byte body followed by the CRC_A of the body, low byte first (the handler
leaves defined behaviour only by indexing a sector beyond the array, which
needs `sector_count > 40`); the response of `process_host_command` is the two
bytes command id and status, without CRC. -/
theorem mifare_responses_crc_framed (s : FwState) (command : List Byte)
    (host_command : Nat → Byte) (length : Word) :
    (match handle_mifare_classic_command s command with
     | .ok s1 => ∃ frames : List (List Byte),
         s1.tx = s.tx ++ frames ∧ ∀ f ∈ frames, crc_framed f
     | .error e => e = Fault.out_of_bounds ∧ MAX_SECTOR_COUNT < s.cfg.sector_count.val) ∧
    ∃ status : Byte,
      (process_host_command s host_command length).tx =
        s.tx ++ [[host_command 0, status]] := by
  refine ⟨?_, _, process_host_command_tx s host_command length⟩
  unfold handle_mifare_classic_command
  dsimp only
  split_ifs
  all_goals simp only [send_mifare_response_tx, send_mifare_response_cfg, receive_command_tx,
    receive_command_cfg, List.append_assoc, MAX_SECTOR_COUNT] at *
  all_goals first
    | exact ⟨[], (List.append_nil _).symm, fun _ h => absurd h (List.not_mem_nil _)⟩
    | exact ⟨_, rfl, crc_framed_mem1 _ (Or.inl rfl)⟩
    | exact ⟨_, rfl, crc_framed_mem1 _ (Or.inr (Or.inl rfl))⟩
    | exact ⟨_, rfl, crc_framed_mem1 _ (Or.inr (Or.inr (List.length_ofFn _)))⟩
    | exact ⟨_, rfl, crc_framed_mem2 _ _ (Or.inl rfl) (Or.inl rfl)⟩
    | exact ⟨trivial, by omega⟩

/-! ## Command dispatcher -/

/-- The sector loop copies `k` records when `k` complete records are there
and either the loop bound is reached or the next record is short. -/
theorem sector_loop_spec (payload : Nat → Byte) (plen count : Nat) :
    ∀ (fuel i off : Nat) (sectors : Fin 40 → mifare_sector_t) (st : Byte) (k : Nat),
      i + k ≤ min count 40 → off + 75 * k ≤ plen →
      (i + k = min count 40 ∨ plen < off + 75 * (k + 1)) →
      40 ≤ i + fuel →
      sector_loop payload plen count fuel i off sectors st =
        (fun j => if i ≤ j.val ∧ j.val < i + k
                  then copy_sector (sectors j) payload (off + 75 * (j.val - i))
                  else sectors j,
         if i + k = min count 40 then st else 0x01) := by
  intro fuel
  induction fuel with
  | zero =>
    intro i off sectors st k h1 h2 h3 h4
    have hk : k = 0 := by omega
    have hi : i + k = min count 40 := by omega
    subst hk
    simp only [sector_loop, hi, if_true]
    congr 1
    funext j
    split_ifs with hh <;> first | rfl | (exfalso; omega)
  | succ fuel ih =>
    intro i off sectors st k h1 h2 h3 h4
    unfold sector_loop
    by_cases hc : i < count ∧ i < 40
    · rw [dif_pos hc]
      by_cases hp : off + 75 ≤ plen
      · rw [if_pos hp]
        have hk : 1 ≤ k := by omega
        rw [ih (i + 1) (off + 75) _ st (k - 1) (by omega) (by omega) (by omega) (by omega)]
        have e1 : i + 1 + (k - 1) = i + k := by omega
        rw [e1]
        congr 1
        funext j
        by_cases hj : j.val = i
        · have hj2 : j = ⟨i, hc.2⟩ := Fin.ext hj
          subst hj2
          have c1 : ¬ (i + 1 ≤ i ∧ i < i + k) := by omega
          have c2 : i ≤ i ∧ i < i + k := by omega
          have e2 : off + 75 * (i - i) = off := by omega
          rw [if_neg c1, if_pos c2, e2, Function.update_same]
        · have hj2 : j ≠ ⟨i, hc.2⟩ := fun h => hj (congrArg Fin.val h)
          rw [Function.update_noteq hj2]
          by_cases c : i + 1 ≤ j.val ∧ j.val < i + k
          · have c2 : i ≤ j.val ∧ j.val < i + k := by omega
            have e2 : off + 75 + 75 * (j.val - (i + 1)) = off + 75 * (j.val - i) := by omega
            simp only [c, c2, if_true, e2]
          · have c2 : ¬ (i ≤ j.val ∧ j.val < i + k) := by omega
            simp only [c, c2, if_false]
      · rw [if_neg hp]
        have hk : k = 0 := by omega
        subst hk
        have hi : ¬ (i + 0 = min count 40) := by omega
        simp only [hi, if_false]
        congr 1
        funext j
        split_ifs with hh <;> first | rfl | (exfalso; omega)
    · rw [dif_neg hc]
      have hk : k = 0 := by omega
      subst hk
      have hi : i + 0 = min count 40 := by omega
      simp only [hi, if_true]
      congr 1
      funext j
      split_ifs with hh <;> first | rfl | (exfalso; omega)

theorem process_host_command_eq (s : FwState) (command : Nat → Byte) (length : Word)
    (plen : Nat) (hl : length.val = plen + 1) :
    process_host_command s command length =
      send_response (host_command_switch s (command 0) (fun k => command (1 + k)) plen).1
        [command 0, (host_command_switch s (command 0) (fun k => command (1 + k)) plen).2] := by
  have e : (length.val + 65535) % 65536 = plen := by
    have := length.isLt
    omega
  simp only [process_host_command, e]

theorem config_switch (s : FwState) (payload : Nat → Byte) (plen k : Nat)
    (hu : (payload 0).val ≤ 10)
    (hh : (payload 0).val + 5 ≤ plen)
    (hk1 : k ≤ min (payload (1 + (payload 0).val + 3)).val 40)
    (hk2 : (payload 0).val + 5 + 75 * k ≤ plen)
    (hk3 : k = min (payload (1 + (payload 0).val + 3)).val 40 ∨
      plen < (payload 0).val + 5 + 75 * (k + 1)) :
    host_command_switch s CMD_CONFIG_EMULATION payload plen =
      ({ s with
          cfg := { config_header s.cfg payload with
            sectors := fun j => if j.val < k
              then copy_sector (s.cfg.sectors j) payload ((payload 0).val + 5 + 75 * j.val)
              else s.cfg.sectors j } },
        if k = min (payload (1 + (payload 0).val + 3)).val 40 then 0x00 else 0x01) := by
  unfold host_command_switch
  dsimp only
  rw [if_neg (by decide), if_pos rfl, if_pos (by omega), if_pos (by simp only [MAX_UID_SIZE]; omega)]
  have hsc : (config_header s.cfg payload).sector_count = payload (1 + (payload 0).val + 3) := rfl
  have hss : (config_header s.cfg payload).sectors = s.cfg.sectors := rfl
  rw [hsc, hss]
  rw [sector_loop_spec payload plen _ 40 0 (1 + (payload 0).val + 4) _ 0x00 k
    (by omega) (by omega) (by omega) (by omega)]
  have e : ∀ j : Nat, 1 + (payload 0).val + 4 + 75 * j = (payload 0).val + 5 + 75 * j := by
    intro j; omega
  simp only [config_header, Nat.zero_add, Nat.sub_zero, Nat.zero_le, true_and, e]

theorem read_in_range (s : FwState) (a : Byte) (h1 : a.val / 4 < s.cfg.sector_count.val)
    (h2 : a.val / 4 < 40) :
    handle_mifare_classic_command s [0x30, a] =
      .ok (send_mifare_response s
        (List.ofFn ((s.cfg.sectors ⟨a.val / 4, h2⟩).blocks ⟨a.val % 4, Nat.mod_lt _ (by decide)⟩))) := by
  unfold handle_mifare_classic_command
  dsimp only
  have hb : a.val % 4 < 4 := Nat.mod_lt _ (by decide)
  rw [if_neg (by simp), if_neg (by simp), if_pos (by simp), if_pos (by simp),
    if_pos ⟨by simpa using h1, by simpa using hb⟩, dif_pos (by simpa using h2)]
  rfl

set_option maxRecDepth 100000 in
/-- C3 (code at the failing input): an accepted configuration with one
75-byte record, then Read of block 3.  The block is copied from payload
offsets 68..83, past the 80 payload bytes: the response carries 12 record
bytes and then the 4 bytes that lay behind the command in memory. -/
theorem configured_block_reads_past_payload :
    (process_host_command zero_state (mem_of_list one_sector_command 0xEE) 81).tx =
      [[0x24, 0x00]] ∧
    tx_of (handle_mifare_classic_command
        (process_host_command zero_state (mem_of_list one_sector_command 0xEE) 81)
        [0x30, 0x03]) =
      some [[0x24, 0x00],
        List.replicate 12 0x11 ++ List.replicate 4 0xEE ++
          crc_bytes (crc_a_reference (List.replicate 12 0x11 ++ List.replicate 4 0xEE))] := by
  decide

set_option maxRecDepth 100000 in
/-- C5 (code at the failing input): the zero card satisfies the invariant; a
configuration declaring 255 sectors is answered with status 0x01 and still
leaves `sector_count = 255`, so the invariant is lost and a Read of block
0xA0 (sector 40) indexes the 40-sector array out of bounds. -/
theorem sector_count_stored_unchecked :
    card_invariant zero_state.cfg ∧
    (process_host_command zero_state (mem_of_list oversized_count_command 0x00) 6).tx =
      [[0x24, 0x01]] ∧
    (process_host_command zero_state (mem_of_list oversized_count_command 0x00) 6).cfg.sector_count
      = 0xFF ∧
    ¬ card_invariant
      (process_host_command zero_state (mem_of_list oversized_count_command 0x00) 6).cfg ∧
    tx_of (handle_mifare_classic_command
      (process_host_command zero_state (mem_of_list oversized_count_command 0x00) 6)
      [0x30, 0xA0]) = none := by
  decide

/-- C7 (code at the failing input): SecurityBypass without its policy byte
and FirmwareUpdate with a 3-byte payload are answered with status 0x00, while
ConfigureEmulation without payload is answered with status 0x01. -/
theorem short_payload_reported_as_success :
    (process_host_command zero_state (mem_of_list [0x40] 0x00) 1).tx = [[0x40, 0x00]] ∧
    (process_host_command zero_state (mem_of_list [0xF0, 0x01, 0x02, 0x03] 0x00) 4).tx =
      [[0xF0, 0x00]] ∧
    (process_host_command zero_state (mem_of_list [0x24] 0x00) 1).tx = [[0x24, 0x01]] := by
  decide

set_option maxRecDepth 100000 in
/-- C9 (code at the failing input): two declared sectors, one complete
record and 10 bytes of a second.  Status is 0x01 and sector 1 stays zero, but
block 3 of sector 0 ends with 4 bytes of the rejected second record. -/
theorem partial_apply_block_crosses_record :
    (process_host_command zero_state (mem_of_list partial_command 0x00) 91).tx =
      [[0x24, 0x01]] ∧
    List.ofFn (((process_host_command zero_state (mem_of_list partial_command 0x00) 91).cfg.sectors
      0).blocks 3) = List.replicate 12 0x11 ++ List.replicate 4 0x22 ∧
    List.ofFn (((process_host_command zero_state (mem_of_list partial_command 0x00) 91).cfg.sectors
      1).blocks 0) = List.replicate 16 0x00 := by
  decide

/-- C6: a command whose id is none of 0x20, 0x24, 0x25, 0x26, 0x30, 0x40,
0xF0 sends the one response {commandId, 0xFF} and changes nothing else. -/
theorem unknown_command_rejected (s : FwState) (command : Nat → Byte) (length : Word)
    (h : command 0 ≠ 0x20 ∧ command 0 ≠ 0x24 ∧ command 0 ≠ 0x25 ∧ command 0 ≠ 0x26 ∧
      command 0 ≠ 0x30 ∧ command 0 ≠ 0x40 ∧ command 0 ≠ 0xF0) :
    process_host_command s command length = { s with tx := s.tx ++ [[command 0, 0xFF]] } := by
  obtain ⟨h1, h2, h3, h4, h5, h6, h7⟩ := h
  unfold process_host_command host_command_switch
  dsimp only
  rw [if_neg h1, if_neg h2, if_neg h3, if_neg h4, if_neg h5, if_neg h6, if_neg h7]
  rfl

/-- C6 at a concrete input: the command 99 01 on the zero state. -/
theorem unknown_command_rejected_witness :
    (mem_of_list [0x99, 0x01] 0x00 0 ≠ 0x20 ∧ mem_of_list [0x99, 0x01] 0x00 0 ≠ 0x24 ∧
      mem_of_list [0x99, 0x01] 0x00 0 ≠ 0x25 ∧ mem_of_list [0x99, 0x01] 0x00 0 ≠ 0x26 ∧
      mem_of_list [0x99, 0x01] 0x00 0 ≠ 0x30 ∧ mem_of_list [0x99, 0x01] 0x00 0 ≠ 0x40 ∧
      mem_of_list [0x99, 0x01] 0x00 0 ≠ 0xF0) ∧
    process_host_command zero_state (mem_of_list [0x99, 0x01] 0x00) 2 =
      { zero_state with tx := zero_state.tx ++ [[mem_of_list [0x99, 0x01] 0x00 0, 0xFF]] } :=
  ⟨by decide, unknown_command_rejected zero_state (mem_of_list [0x99, 0x01] 0x00) 2 (by decide)⟩

/-- C8: a ConfigureEmulation command (payload of `plen` bytes) whose payload
is shorter than 3 bytes, or has `uidLen > 10`, or is shorter than `uidLen + 5`
bytes, is answered with {0x24, 0x01} and changes nothing else: every field of
the emulated card keeps its value. -/
theorem config_header_rejection_atomic (s : FwState) (command : Nat → Byte) (length : Word)
    (plen : Nat) (hl : length.val = plen + 1) (hc : command 0 = 0x24)
    (hbad : plen < 3 ∨ 10 < (command 1).val ∨ plen < (command 1).val + 5) :
    process_host_command s command length = { s with tx := s.tx ++ [[0x24, 0x01]] } ∧
    (process_host_command s command length).cfg = s.cfg := by
  rw [process_host_command_eq s command length plen hl, hc]
  unfold host_command_switch
  dsimp only
  rw [if_neg (by decide), if_pos rfl]
  simp only [Nat.add_zero]
  by_cases h3 : plen ≥ 3
  · rw [if_pos h3, if_neg (by simp only [MAX_UID_SIZE]; omega)]
    exact ⟨rfl, rfl⟩
  · rw [if_neg h3]
    exact ⟨rfl, rfl⟩

/-- C8 at a concrete input: a 6-byte payload that declares `uidLen = 11`. -/
theorem config_header_rejection_atomic_witness :
    ((7 : Word).val = 6 + 1 ∧ mem_of_list [0x24, 0x0B, 1, 2, 3, 4, 5] 0x00 0 = 0x24 ∧
      (6 < 3 ∨ 10 < (mem_of_list [0x24, 0x0B, 1, 2, 3, 4, 5] 0x00 1).val ∨
        6 < (mem_of_list [0x24, 0x0B, 1, 2, 3, 4, 5] 0x00 1).val + 5)) ∧
    (process_host_command zero_state (mem_of_list [0x24, 0x0B, 1, 2, 3, 4, 5] 0x00) 7 =
        { zero_state with tx := zero_state.tx ++ [[0x24, 0x01]] } ∧
      (process_host_command zero_state (mem_of_list [0x24, 0x0B, 1, 2, 3, 4, 5] 0x00) 7).cfg =
        zero_state.cfg) :=
  ⟨by decide,
   config_header_rejection_atomic zero_state (mem_of_list [0x24, 0x0B, 1, 2, 3, 4, 5] 0x00) 7 6
     (by decide) (by decide) (by decide)⟩

/-! ## Write and Read -/

theorem receive_command_cons (s : FwState) (f : List Byte) (rest : List (List Byte))
    (h : s.rx = f :: rest) :
    receive_command s =
      ({ s with rx := rest,
                cmdbuf := fun j => (f.take MAX_COMMAND_SIZE).getD j.val (s.cmdbuf j) },
       f.take MAX_COMMAND_SIZE) := by
  unfold receive_command
  rw [h]

theorem ofFn_cmdbuf_take (f : List Byte) (old : Fin 256 → Byte) (h : 16 ≤ f.length) :
    List.ofFn (fun j : Fin 16 => (f.take 256).getD (Fin.castLE (by decide : 16 ≤ 256) j).val
      (old (Fin.castLE (by decide : 16 ≤ 256) j))) = f.take 16 := by
  apply List.ext_getElem
  · simp only [List.length_ofFn, List.length_take]
    omega
  · intro i h1 h2
    simp only [List.length_ofFn] at h1
    simp only [List.getElem_ofFn, Fin.coe_castLE, List.getElem_take]
    rw [List.getD_eq_getElem _ _ (by simp only [List.length_take]; omega), List.getElem_take]

/-- C4: read-after-write.  With `sector_count ≤ 40` and block address `a` in
a configured sector, a Write frame `[0xA0, a]` whose data receive delivers at
least 16 bytes, followed by a Read frame `[0x30, a]`, makes the Read answer
the first 16 received bytes followed by their CRC_A, low byte first. -/
theorem write_then_read (s : FwState) (a : Byte) (data : List Byte)
    (rest : List (List Byte)) (hrx : s.rx = data :: rest) (hlen : 16 ≤ data.length)
    (hcount : s.cfg.sector_count.val ≤ 40) (ha : a.val / 4 < s.cfg.sector_count.val) :
    ∃ s1 s2 : FwState,
      handle_mifare_classic_command s [0xA0, a] = .ok s1 ∧
      handle_mifare_classic_command s1 [0x30, a] = .ok s2 ∧
      s2.tx = s1.tx ++ [data.take 16 ++
        [u8 (crc_a_reference (data.take 16) &&& 0xFF),
         u8 ((crc_a_reference (data.take 16) >>> 8) &&& 0xFF)]] := by
  have h40 : a.val / 4 < 40 := by omega
  have hb : a.val % 4 < 4 := Nat.mod_lt _ (by decide)
  have hw : ∃ s1 : FwState, handle_mifare_classic_command s [0xA0, a] = .ok s1 ∧
      s1.cfg.sector_count = s.cfg.sector_count ∧
      List.ofFn ((s1.cfg.sectors ⟨a.val / 4, h40⟩).blocks ⟨a.val % 4, hb⟩) = data.take 16 := by
    unfold handle_mifare_classic_command
    dsimp only
    have hr := receive_command_cons (send_mifare_response s [0x0A]) data rest hrx
    rw [if_neg (by simp), if_neg (by simp), if_neg (by simp), if_pos (by simp), if_pos (by simp)]
    simp only [hr, List.getD_cons_succ, List.getD_cons_zero, List.length_take]
    rw [if_pos (by simp only [MAX_COMMAND_SIZE]; omega),
      if_pos ⟨by simpa using ha, by simpa using hb⟩, dif_pos (by simpa using h40)]
    refine ⟨_, rfl, rfl, ?_⟩
    simp only [send_mifare_response_cfg, Function.update_same]
    exact ofFn_cmdbuf_take data _ hlen
  obtain ⟨s1, h1, hc1, hblk⟩ := hw
  refine ⟨s1, _, h1, read_in_range s1 a (by rw [hc1]; exact ha) h40, ?_⟩
  rw [send_mifare_response_tx, hblk, mifare_crc_eq_ref]
  rfl

/-- C4 at a concrete input: two sectors, block address 0x04, data 0x01..0x10. -/
theorem write_then_read_witness :
    (write_read_state.rx = write_data :: [] ∧ 16 ≤ write_data.length ∧
      write_read_state.cfg.sector_count.val ≤ 40 ∧
      (0x04 : Byte).val / 4 < write_read_state.cfg.sector_count.val) ∧
    ∃ s1 s2 : FwState,
      handle_mifare_classic_command write_read_state [0xA0, 0x04] = .ok s1 ∧
      handle_mifare_classic_command s1 [0x30, 0x04] = .ok s2 ∧
      s2.tx = s1.tx ++ [write_data.take 16 ++
        [u8 (crc_a_reference (write_data.take 16) &&& 0xFF),
         u8 ((crc_a_reference (write_data.take 16) >>> 8) &&& 0xFF)]] :=
  ⟨⟨rfl, by decide, by decide, by decide⟩,
   write_then_read write_read_state 0x04 write_data [] rfl (by decide) (by decide) (by decide)⟩

/-! ## Card selection -/

theorem bcc_loop_spec (uid : Fin MAX_UID_SIZE → Byte) :
    ∀ (n i : Nat) (response : List Byte) (bcc : Byte), i + n ≤ 10 →
      bcc_loop uid n i response bcc =
        .ok (response ++ ((List.ofFn uid).drop i).take n,
             (((List.ofFn uid).drop i).take n).foldl (fun bcc x => u8 (bcc.val ^^^ x.val)) bcc) := by
  intro n
  induction n with
  | zero => intro i response bcc _; simp [bcc_loop]
  | succ n ih =>
    intro i response bcc h
    have hi : i < MAX_UID_SIZE := by simp only [MAX_UID_SIZE]; omega
    have hd : (List.ofFn uid).drop i = uid ⟨i, hi⟩ :: (List.ofFn uid).drop (i + 1) := by
      rw [List.drop_eq_getElem_cons (by simpa using hi), List.getElem_ofFn]
    unfold bcc_loop
    rw [dif_pos hi, ih (i + 1) _ _ (by omega), hd]
    simp

theorem bcc_loop_ok (uid : Fin MAX_UID_SIZE → Byte) (n : Nat) (h : n ≤ 10) :
    bcc_loop uid n 0 [] 0 = .ok (uid_bytes uid n, bcc_of (uid_bytes uid n)) := by
  rw [bcc_loop_spec uid n 0 [] 0 (by omega)]
  simp [uid_bytes, bcc_of]

theorem uid_match_loop_true (cmdbuf : Fin MAX_COMMAND_SIZE → Byte) (uid : Fin MAX_UID_SIZE → Byte) :
    ∀ (n i : Nat), i + n ≤ 10 →
      (∀ (j : Nat) (hj : j < MAX_UID_SIZE), i ≤ j → j < i + n →
        cmdbuf ⟨2 + j, Nat.lt_of_lt_of_le (Nat.add_lt_add_left hj 2) (by decide)⟩ = uid ⟨j, hj⟩) →
      uid_match_loop cmdbuf uid n i = .ok true := by
  intro n
  induction n with
  | zero => intro i _ _; rfl
  | succ n ih =>
    intro i h hm
    have hi : i < MAX_UID_SIZE := by simp only [MAX_UID_SIZE]; omega
    unfold uid_match_loop
    rw [dif_pos hi, if_neg (by rw [hm i hi (by omega) (by omega)]; simp)]
    exact ih (i + 1) (by omega) (fun j hj h1 h2 => hm j hj (by omega) (by omega))

theorem receive_command_rx_le (s : FwState) :
    (receive_command s).1.rx.length ≤ s.rx.length := by
  unfold receive_command
  split
  · exact Nat.le_refl _
  · rename_i f rest h
    rw [h]
    simp

theorem receive_command_rx_lt (s : FwState) (h : (receive_command s).2.length > 0) :
    (receive_command s).1.rx.length < s.rx.length := by
  unfold receive_command at h ⊢
  split
  · rename_i h0
    rw [h0] at h
    simp at h
  · rename_i f rest h0
    rw [h0]
    simp

@[simp] theorem send_mifare_response_rx (s : FwState) (r : List Byte) :
    (send_mifare_response s r).rx = s.rx := rfl

/-- The MIFARE handler never lengthens the queue of pending frames and never
reports an exhausted iteration bound. -/
theorem handle_mifare_rx (s : FwState) (command : List Byte) :
    match handle_mifare_classic_command s command with
    | .ok s1 => s1.rx.length ≤ s.rx.length
    | .error e => e = Fault.out_of_bounds := by
  unfold handle_mifare_classic_command
  dsimp only
  have hr := receive_command_rx_le (send_mifare_response s [0x0A])
  simp only [send_mifare_response_rx] at hr
  split_ifs
  all_goals simp only [send_mifare_response_rx]
  all_goals first
    | exact Nat.le_refl _
    | exact hr

/-- One more iteration than there are pending frames is enough for the
session loop: it never stops on the iteration bound. -/
theorem selected_loop_fuel (n : Nat) :
    ∀ s : FwState, s.rx.length < n → selected_loop n s ≠ .error Fault.out_of_fuel := by
  induction n with
  | zero => intro s h; omega
  | succ n ih =>
    intro s h
    unfold selected_loop
    dsimp only
    by_cases h1 : (receive_command s).2.length > 0
    · rw [if_pos h1]
      by_cases h2 : (receive_command s).1.cfg.sak = 0x08
      · rw [if_pos h2]
        have hm := handle_mifare_rx (receive_command s).1 (receive_command s).2
        have hlt := receive_command_rx_lt s h1
        cases hc : handle_mifare_classic_command (receive_command s).1 (receive_command s).2 with
        | ok s2 =>
          rw [hc] at hm
          simp only at hm ⊢
          exact ih s2 (by omega)
        | error e =>
          rw [hc] at hm
          simp only at hm ⊢
          rw [hm]
          simp
      · rw [if_neg h2]
        simp
    · rw [if_neg h1]
      simp

/-- C10 (counterexample): with UID AA BB CC DD the 6-byte frame
93 70 AA BB CC DD draws no SAK; only the UID and BCC frame is sent. -/
theorem select_six_byte_frame_no_sak :
    tx_of (handle_card_selection (aabbccdd_state [[0x93, 0x70, 0xAA, 0xBB, 0xCC, 0xDD]])
      aabbccdd_config.uid aabbccdd_config.uid_size) =
      some [[0xAA, 0xBB, 0xCC, 0xDD, 0x00]] := by
  decide

/-- C10 (amended): a frame of at least 7 bytes received after the
anticollision response, whose first two bytes are 0x93 0x70 and whose next
`uid_size` bytes equal the UID, is answered with the one SAK byte, and the
handler goes on as the session loop over the remaining frames, which does not
stop on its iteration bound. -/
theorem select_matching_uid (s : FwState) (uid : Fin MAX_UID_SIZE → Byte) (uid_size : Byte)
    (f : List Byte) (rest : List (List Byte))
    (hrx : s.rx = f :: rest)
    (hsize : uid_size.val ≤ 10)
    (hlen : 7 ≤ f.length) (hlen2 : 2 + uid_size.val ≤ f.length)
    (h0 : f.getD 0 0 = 0x93) (h1 : f.getD 1 0 = 0x70)
    (huid : ∀ j : Fin MAX_UID_SIZE, j.val < uid_size.val → f.getD (2 + j.val) 0 = uid j) :
    handle_card_selection s uid uid_size =
      selected_loop (rest.length + 1)
        { s with
          rx := rest
          cmdbuf := fun j => (f.take MAX_COMMAND_SIZE).getD j.val (s.cmdbuf j)
          tx := s.tx ++ [uid_bytes uid uid_size.val ++ [bcc_of (uid_bytes uid uid_size.val)],
                         [s.cfg.sak]] } ∧
    handle_card_selection s uid uid_size ≠ .error Fault.out_of_fuel := by
  have key : handle_card_selection s uid uid_size =
      selected_loop (rest.length + 1)
        { s with
          rx := rest
          cmdbuf := fun j => (f.take MAX_COMMAND_SIZE).getD j.val (s.cmdbuf j)
          tx := s.tx ++ [uid_bytes uid uid_size.val ++ [bcc_of (uid_bytes uid uid_size.val)],
                         [s.cfg.sak]] } := by
    unfold handle_card_selection
    rw [bcc_loop_ok uid uid_size.val hsize]
    dsimp only
    have hr := receive_command_cons
      (send_response s (uid_bytes uid uid_size.val ++ [bcc_of (uid_bytes uid uid_size.val)]))
      f rest hrx
    simp only [hr]
    have hget : ∀ (k : Nat) (d : Byte), k < 256 → k < f.length →
        (f.take MAX_COMMAND_SIZE).getD k d = f.getD k 0 := by
      intro k d hk1 hk2
      rw [List.getD_eq_getElem _ _ (by simp only [List.length_take, MAX_COMMAND_SIZE]; omega),
        List.getD_eq_getElem _ _ hk2, List.getElem_take]
    have hm : uid_match_loop
        (fun j => (f.take MAX_COMMAND_SIZE).getD j.val
          ((send_response s
            (uid_bytes uid uid_size.val ++ [bcc_of (uid_bytes uid uid_size.val)])).cmdbuf j))
        uid uid_size.val 0 = .ok true := by
      apply uid_match_loop_true _ _ _ _ (by omega)
      intro j hj _ hj2
      simp only [MAX_UID_SIZE] at hj
      dsimp only
      rw [hget _ _ (by omega) (by omega)]
      exact huid ⟨j, hj⟩ (by simpa using hj2)
    rw [if_pos ⟨by simp only [List.length_take, MAX_COMMAND_SIZE]; omega,
      by show (f.take MAX_COMMAND_SIZE).getD 0 _ = _; rw [hget 0 _ (by omega) (by omega)]; exact h0,
      by show (f.take MAX_COMMAND_SIZE).getD 1 _ = _; rw [hget 1 _ (by omega) (by omega)]; exact h1⟩]
    rw [hm]
    simp only [if_true, send_response, List.append_assoc, List.singleton_append]
  exact ⟨key, by rw [key]; exact selected_loop_fuel _ _ (by simp)⟩

/-- C10 (amended) at a concrete input: UID AA BB CC DD and the 7-byte frame
93 70 AA BB CC DD 00. -/
theorem select_matching_uid_witness :
    ((aabbccdd_state [select_frame]).rx = select_frame :: [] ∧
      aabbccdd_config.uid_size.val ≤ 10 ∧ 7 ≤ select_frame.length ∧
      2 + aabbccdd_config.uid_size.val ≤ select_frame.length ∧
      select_frame.getD 0 0 = 0x93 ∧ select_frame.getD 1 0 = 0x70 ∧
      ∀ j : Fin MAX_UID_SIZE, j.val < aabbccdd_config.uid_size.val →
        select_frame.getD (2 + j.val) 0 = aabbccdd_config.uid j) ∧
    (handle_card_selection (aabbccdd_state [select_frame]) aabbccdd_config.uid
        aabbccdd_config.uid_size =
      selected_loop (([] : List (List Byte)).length + 1)
        { aabbccdd_state [select_frame] with
          rx := []
          cmdbuf := fun j => (select_frame.take MAX_COMMAND_SIZE).getD j.val
            ((aabbccdd_state [select_frame]).cmdbuf j)
          tx := (aabbccdd_state [select_frame]).tx ++
            [uid_bytes aabbccdd_config.uid aabbccdd_config.uid_size.val ++
              [bcc_of (uid_bytes aabbccdd_config.uid aabbccdd_config.uid_size.val)],
             [(aabbccdd_state [select_frame]).cfg.sak]] } ∧
      handle_card_selection (aabbccdd_state [select_frame]) aabbccdd_config.uid
        aabbccdd_config.uid_size ≠ .error Fault.out_of_fuel) :=
  ⟨⟨rfl, by decide, by decide, by decide, by decide, by decide, by decide⟩,
   select_matching_uid (aabbccdd_state [select_frame]) aabbccdd_config.uid
     aabbccdd_config.uid_size select_frame [] rfl (by decide) (by decide) (by decide)
     (by decide) (by decide) (by decide)⟩

/-! ## What the configuration copies -/

/-- What Read returns after an accepted configuration: for a command with
`uidLen ≤ 10`, `n ≤ 40` declared sectors and exactly `n` 75-byte records, the
status is 0x00 and Read of a block address `a` with `a / 4 < n` answers the 16
bytes of memory at payload offset `uidLen + 5 + 75 * (a / 4) + 15 + 16 * (a % 4)`
with their CRC.  These bytes lie inside the payload except for block 3 of the
last sector, whose last four bytes lie behind it. -/
theorem configure_then_read_memory (s s1 : FwState) (command : Nat → Byte) (length : Word)
    (n : Nat) (a : Byte)
    (hc : command 0 = CMD_CONFIG_EMULATION)
    (hu : (command 1).val ≤ 10)
    (hn : (command (1 + ((command 1).val + 4))).val = n) (hn40 : n ≤ 40)
    (hl : length.val = ((command 1).val + 5 + 75 * n) + 1)
    (ha : a.val / 4 < n)
    (hs : s1.cfg = (process_host_command s command length).cfg) :
    (process_host_command s command length).tx = s.tx ++ [[0x24, 0x00]] ∧
    handle_mifare_classic_command s1 [0x30, a] =
      .ok (send_mifare_response s1 (List.ofFn (fun j : Fin 16 =>
        command (1 + ((command 1).val + 5 + 75 * (a.val / 4) + 15 + 16 * (a.val % 4) + j.val))))) := by
  have hn' : (command (1 + (1 + (command (1 + 0)).val + 3))).val = n := by
    rw [← hn]; congr 2; simp only [Nat.add_zero]; omega
  have hsw := config_switch s (fun k => command (1 + k)) ((command 1).val + 5 + 75 * n) n
    (by simpa using hu) (by simp only [Nat.add_zero]; omega)
    (by dsimp only; rw [hn']; omega) (by simp only [Nat.add_zero]; omega)
    (Or.inl (by dsimp only; rw [hn']; omega))
  have hp := process_host_command_eq s command length _ hl
  rw [hc] at hp
  rw [hsw] at hp
  dsimp only at hp
  rw [hn'] at hp
  have hmin : n = min n 40 := by omega
  rw [if_pos hmin] at hp
  have h40 : a.val / 4 < 40 := by omega
  have hcfg : s1.cfg.sector_count.val = n ∧
      (s1.cfg.sectors ⟨a.val / 4, h40⟩).blocks ⟨a.val % 4, Nat.mod_lt _ (by decide)⟩ =
        fun j : Fin 16 =>
          command (1 + ((command 1).val + 5 + 75 * (a.val / 4) + 15 + 16 * (a.val % 4) + j.val)) := by
    rw [hs, hp]
    simp only [send_response, config_header, copy_sector, if_pos ha, Nat.add_zero]
    refine ⟨hn', ?_⟩
    funext j
    congr 1
    omega
  refine ⟨by rw [hp]; rfl, ?_⟩
  rw [read_in_range s1 a (by rw [hcfg.1]; exact ha) h40, hcfg.2]

/-- What a configuration with a valid header and only `k` complete records
does (`k` below the loop bound): status 0x01, the header fields stored,
sectors `k` and up untouched, and each sector below `k` overwritten with the 79
bytes of memory that start at its 75-byte record. -/
theorem configure_partial_apply (s : FwState) (command : Nat → Byte) (length : Word)
    (plen k : Nat) (hl : length.val = plen + 1)
    (hc : command 0 = CMD_CONFIG_EMULATION)
    (hu : (command 1).val ≤ 10) (hh : (command 1).val + 5 ≤ plen)
    (hk : k < min (command (1 + ((command 1).val + 4))).val 40)
    (hk2 : (command 1).val + 5 + 75 * k ≤ plen)
    (hk3 : plen < (command 1).val + 5 + 75 * (k + 1)) :
    process_host_command s command length =
      { s with
        cfg := { config_header s.cfg (fun i => command (1 + i)) with
          sectors := fun j => if j.val < k
            then copy_sector (s.cfg.sectors j) (fun i => command (1 + i))
              ((command 1).val + 5 + 75 * j.val)
            else s.cfg.sectors j }
        tx := s.tx ++ [[0x24, 0x01]] } := by
  have hn : (command (1 + (1 + (command (1 + 0)).val + 3))).val =
      (command (1 + ((command 1).val + 4))).val := by
    congr 2; simp only [Nat.add_zero]; omega
  have hsw := config_switch s (fun i => command (1 + i)) plen k
    (by simpa using hu) (by simp only [Nat.add_zero]; omega)
    (by dsimp only; rw [hn]; omega) (by simp only [Nat.add_zero]; omega)
    (Or.inr (by simp only [Nat.add_zero]; omega))
  have hp := process_host_command_eq s command length _ hl
  rw [hc, hsw] at hp
  dsimp only at hp
  rw [hn, if_neg (by omega)] at hp
  rw [hp]
  simp only [send_response, Nat.add_zero]

/-! ## C19: CRC residue -/

theorem crc_a_bit_iter_zero (k : Nat) : crc_a_bit^[k] 0 = 0 := by
  have h := crc_a_bit_iter_shift k 0
  simpa using h

theorem xor_low8 (c : Nat) : c ^^^ (c % 2 ^ 8) = (c >>> 8) * 2 ^ 8 := by
  conv_lhs => lhs; rw [split_low8 c]
  rw [Nat.xor_assoc, Nat.xor_self, Nat.xor_zero, Nat.shiftLeft_eq]

theorem crc_a_byte_low (c : Nat) (b : Byte) (hb : b.val = c % 2 ^ 8) :
    crc_a_byte c b = c >>> 8 := by
  unfold crc_a_byte
  rw [hb, xor_low8, crc_a_bit_iter_shift]

theorem crc_a_byte_self (c : Nat) (b : Byte) (hb : b.val = c) : crc_a_byte c b = 0 := by
  unfold crc_a_byte
  rw [hb, Nat.xor_self, crc_a_bit_iter_zero]

theorem crc_bytes_eq (c : Nat) : crc_bytes c = [u8 (c &&& 0xFF), u8 (c >>> 8)] := by
  have e2 : (0xFF : Nat) = 2 ^ 8 - 1 := by norm_num
  simp only [crc_bytes, u8, e2, Nat.and_pow_two_sub_one_eq_mod]
  congr 2
  apply Fin.ext
  simp

/-- C19: for every byte sequence `m` with CRC register `c` after the loop
of `send_mifare_response`, the same loop over `m` followed by the bytes
`c AND 0xFF` and `c >> 8` ends with register 0; so the CRC recomputed over
any frame `send_mifare_response` transmits, by the loop or by the bit-serial
CRC_A reference, is 0. -/
theorem crc_residue_zero :
    (∀ m : List Byte,
      mifare_crc (m ++ [u8 (mifare_crc m &&& 0xFF), u8 (mifare_crc m >>> 8)]) = 0) ∧
    (∀ (s : FwState) (response : List Byte),
      ∃ frame : List Byte, (send_mifare_response s response).tx = s.tx ++ [frame] ∧
        mifare_crc frame = 0 ∧ crc_a_reference frame = 0) := by
  have key : ∀ m : List Byte,
      mifare_crc (m ++ [u8 (mifare_crc m &&& 0xFF), u8 (mifare_crc m >>> 8)]) = 0 := by
    intro m
    have hc := mifare_crc_lt m
    have hv := crc_bytes_val (mifare_crc m) hc
    rw [crc_bytes_eq] at hv
    simp only [List.map_cons, List.map_nil, List.cons.injEq, and_true] at hv
    have e2 : (0xFF : Nat) = 2 ^ 8 - 1 := by norm_num
    rw [mifare_crc_eq_ref, crc_a_reference, List.foldl_append]
    simp only [List.foldl_cons, List.foldl_nil]
    rw [← crc_a_reference, ← mifare_crc_eq_ref]
    have h1 : crc_a_byte (mifare_crc m) (u8 (mifare_crc m &&& 0xFF)) = mifare_crc m >>> 8 :=
      crc_a_byte_low _ _ (by rw [hv.1, e2, Nat.and_pow_two_sub_one_eq_mod])
    rw [h1]
    exact crc_a_byte_self _ _ hv.2
  refine ⟨key, ?_⟩
  intro s response
  refine ⟨response ++ crc_bytes (mifare_crc response), rfl, ?_⟩
  rw [crc_bytes_eq]
  exact ⟨key response, by rw [← mifare_crc_eq_ref]; exact key response⟩

/-! ## Selection sequence: step lemmas -/

theorem receive_deliver (s : FwState) (f : List Byte) (rest : List (List Byte))
    (h : s.rx = f :: rest) :
    receive_command s = (deliver s f rest, f.take MAX_COMMAND_SIZE) :=
  receive_command_cons s f rest h

theorem receive_nil (s : FwState) (h : s.rx = []) : receive_command s = (s, []) := by
  unfold receive_command
  rw [h]

theorem load_frame_at (buf : Fin MAX_COMMAND_SIZE → Byte) (f : List Byte)
    (j : Fin MAX_COMMAND_SIZE) (h : j.val < f.length) :
    load_frame buf f j = f.getD j.val 0 := by
  unfold load_frame
  have hj := j.isLt
  rw [List.getD_eq_getElem _ _ (by simp only [List.length_take]; omega),
    List.getD_eq_getElem _ _ h, List.getElem_take]

theorem length_take_command (f : List Byte) (n : Nat) (hn : n ≤ 256) :
    (f.take MAX_COMMAND_SIZE).length ≥ n ↔ f.length ≥ n := by
  simp only [List.length_take, MAX_COMMAND_SIZE]
  omega

theorem handle_card_selection_eq (s : FwState) (uid : Fin MAX_UID_SIZE → Byte)
    (uid_size : Byte) (h : uid_size.val ≤ 10) :
    handle_card_selection s uid uid_size =
      await_select (send_response s
        (uid_bytes uid uid_size.val ++ [bcc_of (uid_bytes uid uid_size.val)])) uid uid_size := by
  unfold handle_card_selection
  rw [bcc_loop_ok uid uid_size.val h]
  rfl

theorem rf_event_eq (s : FwState) (f1 : List Byte) (rest : List (List Byte))
    (hact : s.cfg.emulation_active = true) (hrx : s.rx = f1 :: rest)
    (h1 : f1.length ≥ 1) (hq : f1.getD 0 0 = 0x26 ∨ f1.getD 0 0 = 0x52) :
    handle_rf_field_event s =
      await_anticollision (send_response (deliver s f1 rest) (atqa_bytes s.cfg)) := by
  unfold handle_rf_field_event
  rw [if_neg (by simp [hact]), receive_deliver s f1 rest hrx]
  dsimp only
  have h0 : (deliver s f1 rest).cmdbuf 0 = f1.getD 0 0 := load_frame_at _ _ 0 (by simpa using h1)
  rw [if_pos ((length_take_command f1 1 (by decide)).2 h1), if_pos (by rw [h0]; exact hq)]
  rfl

theorem await_anticollision_eq (s2 : FwState) (f2 : List Byte) (rest : List (List Byte))
    (hrx : s2.rx = f2 :: rest) (h2 : f2.length ≥ 2)
    (h0 : f2.getD 0 0 = 0x93) (h1 : f2.getD 1 0 = 0x20) :
    await_anticollision s2 =
      handle_card_selection (deliver s2 f2 rest) s2.cfg.uid s2.cfg.uid_size := by
  unfold await_anticollision
  rw [receive_deliver s2 f2 rest hrx]
  dsimp only
  have e0 : (deliver s2 f2 rest).cmdbuf 0 = f2.getD 0 0 := load_frame_at _ _ 0 (by simp; omega)
  have e1 : (deliver s2 f2 rest).cmdbuf 1 = f2.getD 1 0 := load_frame_at _ _ 1 (by simp; omega)
  rw [if_pos ⟨(length_take_command f2 2 (by decide)).2 h2, by rw [e0]; exact h0,
    by rw [e1]; exact h1⟩]
  rfl

/-- The selection sequence up to the anticollision response: with emulation
active, `uid_size ≤ 10`, a first frame that starts with REQA or WUPA and a
second frame that starts with 93 20, the handler sends the ATQA, then the UID
bytes and their BCC, and goes on to wait for the SELECT frame. -/
theorem anticollision_reached (s : FwState) (f1 f2 : List Byte) (rest : List (List Byte))
    (hact : s.cfg.emulation_active = true) (hsize : s.cfg.uid_size.val ≤ 10)
    (hrx : s.rx = f1 :: f2 :: rest)
    (h1 : f1.length ≥ 1) (hq : f1.getD 0 0 = 0x26 ∨ f1.getD 0 0 = 0x52)
    (h2 : f2.length ≥ 2) (h20 : f2.getD 0 0 = 0x93) (h21 : f2.getD 1 0 = 0x20) :
    handle_rf_field_event s =
      await_select
        (send_response
          (deliver (send_response (deliver s f1 (f2 :: rest)) (atqa_bytes s.cfg)) f2 rest)
          (uid_bytes s.cfg.uid s.cfg.uid_size.val ++
            [bcc_of (uid_bytes s.cfg.uid s.cfg.uid_size.val)]))
        s.cfg.uid s.cfg.uid_size := by
  rw [rf_event_eq s f1 (f2 :: rest) hact hrx h1 hq,
    await_anticollision_eq _ f2 rest rfl h2 h20 h21]
  exact handle_card_selection_eq _ _ _ hsize

theorem u8_xor_val (a b : Byte) : (u8 (a.val ^^^ b.val)).val = a.val ^^^ b.val := by
  have h : a.val ^^^ b.val < 2 ^ 8 := Nat.xor_lt_two_pow a.isLt b.isLt
  simp only [u8]
  omega

theorem bcc_foldl_val (l : List Byte) (acc : Byte) :
    (l.foldl (fun bcc x => u8 (bcc.val ^^^ x.val)) acc).val =
      (l.map Fin.val).foldl (fun a b => a ^^^ b) acc.val := by
  induction l generalizing acc with
  | nil => rfl
  | cons x l ih =>
    simp only [List.foldl_cons, List.map_cons]
    rw [ih, u8_xor_val]

theorem uid_bytes_length (uid : Fin MAX_UID_SIZE → Byte) (n : Nat) (h : n ≤ 10) :
    (uid_bytes uid n).length = n := by
  simp only [uid_bytes, List.length_take, List.length_ofFn, MAX_UID_SIZE]
  omega

/-- C12: with emulation active and `uid_size ≤ 10`, when the frame after the
ATQA response starts with 93 20, the next frame sent is the `uid_size` UID
bytes in order followed by the one BCC byte, the XOR of those bytes (0 for an
empty UID), `uid_size + 1` bytes in all and no CRC; the handler then waits for
the SELECT frame. -/
theorem anticollision_response (s : FwState) (f1 f2 : List Byte) (rest : List (List Byte))
    (hact : s.cfg.emulation_active = true) (hsize : s.cfg.uid_size.val ≤ 10)
    (hrx : s.rx = f1 :: f2 :: rest)
    (h1 : f1.length ≥ 1) (hq : f1.getD 0 0 = 0x26 ∨ f1.getD 0 0 = 0x52)
    (h2 : f2.length ≥ 2) (h20 : f2.getD 0 0 = 0x93) (h21 : f2.getD 1 0 = 0x20) :
    handle_rf_field_event s =
      await_select
        { s with
          rx := rest
          cmdbuf := load_frame (load_frame s.cmdbuf f1) f2
          tx := s.tx ++ [atqa_bytes s.cfg,
            (List.ofFn s.cfg.uid).take s.cfg.uid_size.val ++
              [bcc_of ((List.ofFn s.cfg.uid).take s.cfg.uid_size.val)]] }
        s.cfg.uid s.cfg.uid_size ∧
    ((List.ofFn s.cfg.uid).take s.cfg.uid_size.val ++
      [bcc_of ((List.ofFn s.cfg.uid).take s.cfg.uid_size.val)]).length =
        s.cfg.uid_size.val + 1 ∧
    (bcc_of ((List.ofFn s.cfg.uid).take s.cfg.uid_size.val)).val =
      (((List.ofFn s.cfg.uid).take s.cfg.uid_size.val).map Fin.val).foldl
        (fun a b => a ^^^ b) 0 ∧
    (s.cfg.uid_size.val = 0 →
      bcc_of ((List.ofFn s.cfg.uid).take s.cfg.uid_size.val) = 0) := by
  refine ⟨?_, ?_, ?_, ?_⟩
  · rw [anticollision_reached s f1 f2 rest hact hsize hrx h1 hq h2 h20 h21]
    simp only [send_response, deliver, uid_bytes, List.append_assoc, List.singleton_append]
  · have := uid_bytes_length s.cfg.uid s.cfg.uid_size.val hsize
    simp only [uid_bytes] at this
    rw [List.length_append, this]
    rfl
  · exact bcc_foldl_val _ 0
  · intro h0
    rw [h0]
    rfl

/-- C12 at a concrete input: UID AA BB CC DD, frames 26 and 93 20. -/
theorem anticollision_response_witness :
    (selection_state.cfg.emulation_active = true ∧ selection_state.cfg.uid_size.val ≤ 10 ∧
      selection_state.rx = [0x26] :: [0x93, 0x20] :: [] ∧
      ([0x26] : List Byte).length ≥ 1 ∧
      (([0x26] : List Byte).getD 0 0 = 0x26 ∨ ([0x26] : List Byte).getD 0 0 = 0x52) ∧
      ([0x93, 0x20] : List Byte).length ≥ 2 ∧
      ([0x93, 0x20] : List Byte).getD 0 0 = 0x93 ∧ ([0x93, 0x20] : List Byte).getD 1 0 = 0x20) ∧
    (handle_rf_field_event selection_state =
      await_select
        { selection_state with
          rx := []
          cmdbuf := load_frame (load_frame selection_state.cmdbuf [0x26]) [0x93, 0x20]
          tx := selection_state.tx ++ [atqa_bytes selection_state.cfg,
            (List.ofFn selection_state.cfg.uid).take selection_state.cfg.uid_size.val ++
              [bcc_of ((List.ofFn selection_state.cfg.uid).take
                selection_state.cfg.uid_size.val)]] }
        selection_state.cfg.uid selection_state.cfg.uid_size ∧
    ((List.ofFn selection_state.cfg.uid).take selection_state.cfg.uid_size.val ++
      [bcc_of ((List.ofFn selection_state.cfg.uid).take
        selection_state.cfg.uid_size.val)]).length = selection_state.cfg.uid_size.val + 1 ∧
    (bcc_of ((List.ofFn selection_state.cfg.uid).take selection_state.cfg.uid_size.val)).val =
      (((List.ofFn selection_state.cfg.uid).take selection_state.cfg.uid_size.val).map
        Fin.val).foldl (fun a b => a ^^^ b) 0 ∧
    (selection_state.cfg.uid_size.val = 0 →
      bcc_of ((List.ofFn selection_state.cfg.uid).take selection_state.cfg.uid_size.val) = 0)) :=
  ⟨⟨rfl, by decide, rfl, by decide, by decide, by decide, by decide, by decide⟩,
   anticollision_response selection_state [0x26] [0x93, 0x20] []
     rfl (by decide) rfl (by decide) (by decide) (by decide) (by decide) (by decide)⟩

/-- C11 (counterexample): with UID AA BB CC DD and emulation active, the
frames 26 and 93 20 are answered with the ATQA and then AA BB CC DD 00: the
BCC byte is 0x00, not 0x66. -/
theorem anticollision_bcc_not_66 :
    tx_of (handle_rf_field_event selection_state) =
      some [[0x00, 0x00], [0xAA, 0xBB, 0xCC, 0xDD, 0x00]] ∧
    tx_of (handle_rf_field_event selection_state) ≠
      some [[0x00, 0x00], [0xAA, 0xBB, 0xCC, 0xDD, 0x66]] := by
  decide

/-- C11 (amended): with UID AA BB CC DD (`uid_size` 4) and emulation active,
the frames REQA 26 and anticollision 93 20 are answered with the ATQA and then
the five bytes AA BB CC DD 00 (BCC 0x00, the XOR of the four UID bytes); the
handler then waits for the SELECT frame. -/
theorem anticollision_aabbccdd (s : FwState) (rest : List (List Byte))
    (hact : s.cfg.emulation_active = true) (hsize : s.cfg.uid_size = 4)
    (hu0 : s.cfg.uid 0 = 0xAA) (hu1 : s.cfg.uid 1 = 0xBB)
    (hu2 : s.cfg.uid 2 = 0xCC) (hu3 : s.cfg.uid 3 = 0xDD)
    (hrx : s.rx = [0x26] :: [0x93, 0x20] :: rest) :
    handle_rf_field_event s =
      await_select
        { s with
          rx := rest
          cmdbuf := load_frame (load_frame s.cmdbuf [0x26]) [0x93, 0x20]
          tx := s.tx ++ [atqa_bytes s.cfg, [0xAA, 0xBB, 0xCC, 0xDD, 0x00]] }
        s.cfg.uid s.cfg.uid_size := by
  rw [anticollision_reached s [0x26] [0x93, 0x20] rest hact (by rw [hsize]; decide) hrx
    (by decide) (by decide) (by decide) (by decide) (by decide)]
  have hb : uid_bytes s.cfg.uid s.cfg.uid_size.val = [0xAA, 0xBB, 0xCC, 0xDD] := by
    rw [hsize, ← hu0, ← hu1, ← hu2, ← hu3]
    rfl
  rw [hb]
  have hc : bcc_of [0xAA, 0xBB, 0xCC, 0xDD] = 0x00 := by decide
  rw [hc]
  simp only [send_response, deliver, List.append_assoc, List.singleton_append,
    List.cons_append, List.nil_append]

/-- C11 (amended) at a concrete input: the zero card with UID AA BB CC DD,
SAK 08, emulation active. -/
theorem anticollision_aabbccdd_witness :
    (selection_state.cfg.emulation_active = true ∧ selection_state.cfg.uid_size = 4 ∧
      selection_state.cfg.uid 0 = 0xAA ∧ selection_state.cfg.uid 1 = 0xBB ∧
      selection_state.cfg.uid 2 = 0xCC ∧ selection_state.cfg.uid 3 = 0xDD ∧
      selection_state.rx = [0x26] :: [0x93, 0x20] :: []) ∧
    handle_rf_field_event selection_state =
      await_select
        { selection_state with
          rx := []
          cmdbuf := load_frame (load_frame selection_state.cmdbuf [0x26]) [0x93, 0x20]
          tx := selection_state.tx ++
            [atqa_bytes selection_state.cfg, [0xAA, 0xBB, 0xCC, 0xDD, 0x00]] }
        selection_state.cfg.uid selection_state.cfg.uid_size :=
  ⟨⟨rfl, rfl, rfl, rfl, rfl, rfl, rfl⟩,
   anticollision_aabbccdd selection_state [] rfl rfl rfl rfl rfl rfl rfl⟩

/-! ## C13: ATQA round trip -/

theorem config_status_zero_atqa (s : FwState) (payload : Nat → Byte) (plen : Nat)
    (h : (host_command_switch s CMD_CONFIG_EMULATION payload plen).2 = 0x00) :
    (host_command_switch s CMD_CONFIG_EMULATION payload plen).1.cfg.atqa =
      u16 ((payload (1 + (payload 0).val + 1)).val |||
           ((payload (1 + (payload 0).val + 2)).val <<< 8)) := by
  unfold host_command_switch at h ⊢
  dsimp only at h ⊢
  rw [if_neg (by decide), if_pos rfl] at h ⊢
  by_cases h3 : plen ≥ 3
  · rw [if_pos h3] at h ⊢
    by_cases hh : (payload 0).val ≤ MAX_UID_SIZE ∧ plen ≥ 1 + (payload 0).val + 4
    · rw [if_pos hh]
      rfl
    · rw [if_neg hh] at h
      exact absurd (show (0x01 : Byte) = 0x00 from h) (by decide)
  · rw [if_neg h3] at h
    exact absurd (show (0x01 : Byte) = 0x00 from h) (by decide)

theorem atqa_bytes_of (a0 a1 : Byte) (atqa : Word)
    (h : atqa = u16 (a0.val ||| (a1.val <<< 8))) :
    [u8 (atqa.val &&& 0xFF), u8 ((atqa.val >>> 8) &&& 0xFF)] = [a0, a1] := by
  have e2 : (0xFF : Nat) = 2 ^ 8 - 1 := by norm_num
  have hor : a0.val ||| (a1.val <<< 8) = 2 ^ 8 * a1.val + a0.val := by
    rw [Nat.or_comm, Nat.shiftLeft_eq, Nat.mul_comm, ← Nat.mul_add_lt_is_or a0.isLt]
  have h0 := a0.isLt
  have h1 := a1.isLt
  subst h
  simp only [u16, u8, hor, e2, Nat.and_pow_two_sub_one_eq_mod, Nat.shiftRight_eq_div_pow]
  congr 1
  · apply Fin.ext
    simp only
    omega
  · congr 1
    apply Fin.ext
    simp only
    omega

/-- C13: after a ConfigureEmulation command answered with status 0x00, whose
payload carries the ATQA bytes `a0` at payload offset `uidLen + 2` and `a1` at
`uidLen + 3` (command offsets one higher), and with emulation active, an RF
field event whose first frame starts with REQA 26 or WUPA 52 sends as its
first response exactly the two bytes `a0`, `a1`, and goes on to wait for the
anticollision frame. -/
theorem atqa_round_trip (s s1 : FwState) (command : Nat → Byte) (length : Word)
    (f : List Byte) (rest : List (List Byte))
    (hc : command 0 = 0x24)
    (hst : (process_host_command s command length).tx = s.tx ++ [[0x24, 0x00]])
    (hcfg : s1.cfg.atqa = (process_host_command s command length).cfg.atqa)
    (hact : s1.cfg.emulation_active = true)
    (hrx : s1.rx = f :: rest) (hf : f.length ≥ 1)
    (hq : f.getD 0 0 = 0x26 ∨ f.getD 0 0 = 0x52) :
    handle_rf_field_event s1 =
      await_anticollision
        { s1 with
          rx := rest
          cmdbuf := load_frame s1.cmdbuf f
          tx := s1.tx ++ [[command (1 + ((command 1).val + 2)),
                           command (1 + ((command 1).val + 3))]] } := by
  have hz : (host_command_switch s CMD_CONFIG_EMULATION (fun k => command (1 + k))
      ((length.val + 65535) % 65536)).2 = 0x00 := by
    rw [process_host_command_tx, hc] at hst
    have := List.append_cancel_left hst
    simpa using this
  have ha := config_status_zero_atqa s _ _ hz
  have hp : (process_host_command s command length).cfg.atqa =
      u16 ((command (1 + ((command 1).val + 2))).val |||
           ((command (1 + ((command 1).val + 3))).val <<< 8)) := by
    have e : (process_host_command s command length).cfg =
        (host_command_switch s CMD_CONFIG_EMULATION (fun k => command (1 + k))
          ((length.val + 65535) % 65536)).1.cfg := by
      simp only [process_host_command, send_response, hc]
    rw [e, ha]
    have e1 : 1 + (1 + (command (1 + 0)).val + 1) = 1 + ((command 1).val + 2) := by
      simp only [Nat.add_zero]; omega
    have e2 : 1 + (1 + (command (1 + 0)).val + 2) = 1 + ((command 1).val + 3) := by
      simp only [Nat.add_zero]; omega
    simp only [e1, e2]
  rw [rf_event_eq s1 f rest hact hrx hf hq]
  have hb : atqa_bytes s1.cfg = [command (1 + ((command 1).val + 2)),
      command (1 + ((command 1).val + 3))] :=
    atqa_bytes_of _ _ _ (by rw [hcfg, hp])
  rw [hb]
  rfl

/-- C13 at a concrete input: the command 24 00 08 44 03 00, then REQA. -/
theorem atqa_round_trip_witness :
    (mem_of_list atqa_command 0x00 0 = 0x24 ∧
      (process_host_command zero_state (mem_of_list atqa_command 0x00) 6).tx =
        zero_state.tx ++ [[0x24, 0x00]] ∧
      atqa_state.cfg.atqa =
        (process_host_command zero_state (mem_of_list atqa_command 0x00) 6).cfg.atqa ∧
      atqa_state.cfg.emulation_active = true ∧
      atqa_state.rx = [0x26] :: [] ∧ ([0x26] : List Byte).length ≥ 1 ∧
      (([0x26] : List Byte).getD 0 0 = 0x26 ∨ ([0x26] : List Byte).getD 0 0 = 0x52)) ∧
    handle_rf_field_event atqa_state =
      await_anticollision
        { atqa_state with
          rx := []
          cmdbuf := load_frame atqa_state.cmdbuf [0x26]
          tx := atqa_state.tx ++
            [[mem_of_list atqa_command 0x00 (1 + ((mem_of_list atqa_command 0x00 1).val + 2)),
              mem_of_list atqa_command 0x00
                (1 + ((mem_of_list atqa_command 0x00 1).val + 3))]] } :=
  ⟨⟨by decide, by decide, rfl, rfl, rfl, by decide, by decide⟩,
   atqa_round_trip zero_state atqa_state (mem_of_list atqa_command 0x00) 6 [0x26] []
     (by decide) (by decide) rfl rfl rfl (by decide) (by decide)⟩

/-! ## Wrong frames during selection -/

theorem uid_match_loop_false (cmdbuf : Fin MAX_COMMAND_SIZE → Byte) (uid : Fin MAX_UID_SIZE → Byte) :
    ∀ (n i : Nat), i + n ≤ 10 →
      (∃ (j : Nat) (hj : j < MAX_UID_SIZE), i ≤ j ∧ j < i + n ∧
        cmdbuf ⟨2 + j, Nat.lt_of_lt_of_le (Nat.add_lt_add_left hj 2) (by decide)⟩ ≠ uid ⟨j, hj⟩) →
      uid_match_loop cmdbuf uid n i = .ok false := by
  intro n
  induction n with
  | zero =>
    intro i _ h
    obtain ⟨j, _, h1, h2, _⟩ := h
    omega
  | succ n ih =>
    intro i h hm
    have hi : i < MAX_UID_SIZE := by simp only [MAX_UID_SIZE]; omega
    unfold uid_match_loop
    rw [dif_pos hi]
    by_cases hne : cmdbuf ⟨2 + i, Nat.lt_of_lt_of_le (Nat.add_lt_add_left hi 2) (by decide)⟩ ≠
        uid ⟨i, hi⟩
    · rw [if_pos hne]
    · rw [if_neg hne]
      apply ih (i + 1) (by omega)
      obtain ⟨j, hj, h1, h2, h3⟩ := hm
      have hji : j ≠ i := by
        intro e
        subst e
        exact hne h3
      exact ⟨j, hj, by omega, by omega, h3⟩

theorem await_select_reject (s1 : FwState) (uid : Fin MAX_UID_SIZE → Byte) (uid_size : Byte)
    (f3 : List Byte) (rest : List (List Byte))
    (hrx : s1.rx = f3 :: rest) (hsize : uid_size.val ≤ 10)
    (hbad : ¬ (f3.length ≥ 2 ∧ f3.getD 0 0 = 0x93 ∧ f3.getD 1 0 = 0x70) ∨
      ∃ i : Fin MAX_UID_SIZE, i.val < uid_size.val ∧ 2 + i.val < f3.length ∧
        f3.getD (2 + i.val) 0 ≠ uid i) :
    await_select s1 uid uid_size = .ok (deliver s1 f3 rest) := by
  unfold await_select
  rw [receive_deliver s1 f3 rest hrx]
  dsimp only
  by_cases hc : (f3.take MAX_COMMAND_SIZE).length ≥ 7 ∧ (deliver s1 f3 rest).cmdbuf 0 = 0x93 ∧
      (deliver s1 f3 rest).cmdbuf 1 = 0x70
  · rw [if_pos hc]
    have h7 : f3.length ≥ 7 := (length_take_command f3 7 (by decide)).1 hc.1
    have e0 : (deliver s1 f3 rest).cmdbuf 0 = f3.getD 0 0 := load_frame_at _ _ 0 (by simp; omega)
    have e1 : (deliver s1 f3 rest).cmdbuf 1 = f3.getD 1 0 := load_frame_at _ _ 1 (by simp; omega)
    rcases hbad with hb | ⟨i, hi1, hi2, hi3⟩
    · exact absurd ⟨by omega, by rw [← e0]; exact hc.2.1, by rw [← e1]; exact hc.2.2⟩ hb
    · have hm : uid_match_loop (deliver s1 f3 rest).cmdbuf uid uid_size.val 0 = .ok false := by
        apply uid_match_loop_false _ _ _ _ (by omega)
        refine ⟨i.val, i.isLt, by omega, by omega, ?_⟩
        have hl : (deliver s1 f3 rest).cmdbuf
            ⟨2 + i.val, Nat.lt_of_lt_of_le (Nat.add_lt_add_left i.isLt 2) (by decide)⟩ =
            f3.getD (2 + i.val) 0 := load_frame_at _ _ _ hi2
        rw [hl]
        exact hi3
      rw [hm]
      rfl
  · rw [if_neg hc]

/-- Wrong frames that selection does reject.  With emulation active, (1) a
first frame that does not start with REQA 26 or WUPA 52 is taken and nothing
is sent; (2) after REQA or WUPA a second frame that does not start with 93 20
is taken and only the ATQA has been sent; (3) after the anticollision (with
`uid_size ≤ 10`) a third frame that does not start with 93 70, or in which a
UID byte that the frame really carries (`2 + i < f3.length`) differs from the
emulated UID, is taken and only the ATQA and the UID with BCC have been sent.
In each case the handler returns with the remaining frames still pending and
the emulated card unchanged.  A frame that lacks UID bytes is not covered. -/
theorem selection_rejects_wrong_frame (s : FwState) (f1 f2 f3 : List Byte)
    (rest : List (List Byte)) (hact : s.cfg.emulation_active = true) :
    (s.rx = f1 :: rest → ¬ (f1.getD 0 0 = 0x26 ∨ f1.getD 0 0 = 0x52) →
      handle_rf_field_event s =
        .ok { s with rx := rest, cmdbuf := load_frame s.cmdbuf f1 }) ∧
    (s.rx = f1 :: f2 :: rest → f1.length ≥ 1 → (f1.getD 0 0 = 0x26 ∨ f1.getD 0 0 = 0x52) →
      ¬ (f2.length ≥ 2 ∧ f2.getD 0 0 = 0x93 ∧ f2.getD 1 0 = 0x20) →
      handle_rf_field_event s =
        .ok { s with
              rx := rest
              cmdbuf := load_frame (load_frame s.cmdbuf f1) f2
              tx := s.tx ++ [atqa_bytes s.cfg] }) ∧
    (s.rx = f1 :: f2 :: f3 :: rest → f1.length ≥ 1 →
      (f1.getD 0 0 = 0x26 ∨ f1.getD 0 0 = 0x52) →
      (f2.length ≥ 2 ∧ f2.getD 0 0 = 0x93 ∧ f2.getD 1 0 = 0x20) →
      s.cfg.uid_size.val ≤ 10 →
      (¬ (f3.length ≥ 2 ∧ f3.getD 0 0 = 0x93 ∧ f3.getD 1 0 = 0x70) ∨
        ∃ i : Fin MAX_UID_SIZE, i.val < s.cfg.uid_size.val ∧ 2 + i.val < f3.length ∧
          f3.getD (2 + i.val) 0 ≠ s.cfg.uid i) →
      handle_rf_field_event s =
        .ok { s with
              rx := rest
              cmdbuf := load_frame (load_frame (load_frame s.cmdbuf f1) f2) f3
              tx := s.tx ++ [atqa_bytes s.cfg,
                (List.ofFn s.cfg.uid).take s.cfg.uid_size.val ++
                  [bcc_of ((List.ofFn s.cfg.uid).take s.cfg.uid_size.val)]] }) := by
  refine ⟨?_, ?_, ?_⟩
  · intro hrx hq
    unfold handle_rf_field_event
    rw [if_neg (by simp [hact]), receive_deliver s f1 rest hrx]
    dsimp only
    by_cases h1 : (f1.take MAX_COMMAND_SIZE).length ≥ 1
    · have h1' : f1.length ≥ 1 := (length_take_command f1 1 (by decide)).1 h1
      have h0 : (deliver s f1 rest).cmdbuf 0 = f1.getD 0 0 :=
        load_frame_at _ _ 0 (by simpa using h1')
      rw [if_pos h1, if_neg (by rw [h0]; exact hq)]
      rfl
    · rw [if_neg h1]
      rfl
  · intro hrx h1 hq h2
    rw [rf_event_eq s f1 (f2 :: rest) hact hrx h1 hq]
    unfold await_anticollision
    rw [receive_deliver _ f2 rest rfl]
    dsimp only
    by_cases hl : (f2.take MAX_COMMAND_SIZE).length ≥ 2
    · have hl' : f2.length ≥ 2 := (length_take_command f2 2 (by decide)).1 hl
      have e0 : ∀ b, (deliver b f2 rest).cmdbuf 0 = f2.getD 0 0 :=
        fun b => load_frame_at _ _ 0 (by simp; omega)
      have e1 : ∀ b, (deliver b f2 rest).cmdbuf 1 = f2.getD 1 0 :=
        fun b => load_frame_at _ _ 1 (by simp; omega)
      rw [if_neg (by
        rw [e0, e1]
        intro hc
        exact h2 ⟨hl', hc.2.1, hc.2.2⟩)]
      simp only [send_response, deliver]
    · rw [if_neg (fun hc => hl hc.1)]
      simp only [send_response, deliver]
  · intro hrx h1 hq h2 hsize hbad
    rw [anticollision_reached s f1 f2 (f3 :: rest) hact hsize hrx h1 hq h2.1 h2.2.1 h2.2.2]
    rw [await_select_reject _ _ _ f3 rest rfl hsize hbad]
    simp only [send_response, deliver, uid_bytes, List.append_assoc, List.singleton_append]

/-- The rejected wrong frames at concrete inputs, card with UID AA BB CC DD:
first frame 30; frames 26, 93 70; frames 26, 93 20, 93 70 AA BB CC DE 00. -/
theorem selection_rejects_wrong_frame_witness :
    ((aabbccdd_active [[0x30]]).cfg.emulation_active = true ∧
      (aabbccdd_active [[0x30]]).rx = [0x30] :: [] ∧
      ¬ (([0x30] : List Byte).getD 0 0 = 0x26 ∨ ([0x30] : List Byte).getD 0 0 = 0x52) ∧
      handle_rf_field_event (aabbccdd_active [[0x30]]) =
        .ok { aabbccdd_active [[0x30]] with
              rx := [], cmdbuf := load_frame (aabbccdd_active [[0x30]]).cmdbuf [0x30] }) ∧
    ((aabbccdd_active [[0x26], [0x93, 0x70]]).rx = [0x26] :: [0x93, 0x70] :: [] ∧
      ([0x26] : List Byte).length ≥ 1 ∧
      (([0x26] : List Byte).getD 0 0 = 0x26 ∨ ([0x26] : List Byte).getD 0 0 = 0x52) ∧
      ¬ (([0x93, 0x70] : List Byte).length ≥ 2 ∧ ([0x93, 0x70] : List Byte).getD 0 0 = 0x93 ∧
        ([0x93, 0x70] : List Byte).getD 1 0 = 0x20) ∧
      handle_rf_field_event (aabbccdd_active [[0x26], [0x93, 0x70]]) =
        .ok { aabbccdd_active [[0x26], [0x93, 0x70]] with
              rx := []
              cmdbuf := load_frame
                (load_frame (aabbccdd_active [[0x26], [0x93, 0x70]]).cmdbuf [0x26]) [0x93, 0x70]
              tx := (aabbccdd_active [[0x26], [0x93, 0x70]]).tx ++
                [atqa_bytes (aabbccdd_active [[0x26], [0x93, 0x70]]).cfg] }) ∧
    ((aabbccdd_active [[0x26], [0x93, 0x20], wrong_select_frame]).rx =
        [0x26] :: [0x93, 0x20] :: wrong_select_frame :: [] ∧
      (([0x93, 0x20] : List Byte).length ≥ 2 ∧ ([0x93, 0x20] : List Byte).getD 0 0 = 0x93 ∧
        ([0x93, 0x20] : List Byte).getD 1 0 = 0x20) ∧
      (aabbccdd_active [[0x26], [0x93, 0x20], wrong_select_frame]).cfg.uid_size.val ≤ 10 ∧
      (¬ (wrong_select_frame.length ≥ 2 ∧ wrong_select_frame.getD 0 0 = 0x93 ∧
          wrong_select_frame.getD 1 0 = 0x70) ∨
        ∃ i : Fin MAX_UID_SIZE,
          i.val < (aabbccdd_active [[0x26], [0x93, 0x20], wrong_select_frame]).cfg.uid_size.val ∧
          2 + i.val < wrong_select_frame.length ∧
          wrong_select_frame.getD (2 + i.val) 0 ≠
            (aabbccdd_active [[0x26], [0x93, 0x20], wrong_select_frame]).cfg.uid i) ∧
      handle_rf_field_event (aabbccdd_active [[0x26], [0x93, 0x20], wrong_select_frame]) =
        .ok { aabbccdd_active [[0x26], [0x93, 0x20], wrong_select_frame] with
              rx := []
              cmdbuf := load_frame (load_frame (load_frame
                (aabbccdd_active [[0x26], [0x93, 0x20], wrong_select_frame]).cmdbuf [0x26])
                [0x93, 0x20]) wrong_select_frame
              tx := (aabbccdd_active [[0x26], [0x93, 0x20], wrong_select_frame]).tx ++
                [atqa_bytes (aabbccdd_active [[0x26], [0x93, 0x20], wrong_select_frame]).cfg,
                 (List.ofFn (aabbccdd_active [[0x26], [0x93, 0x20], wrong_select_frame]).cfg.uid).take
                    (aabbccdd_active [[0x26], [0x93, 0x20], wrong_select_frame]).cfg.uid_size.val ++
                  [bcc_of ((List.ofFn
                    (aabbccdd_active [[0x26], [0x93, 0x20], wrong_select_frame]).cfg.uid).take
                    (aabbccdd_active [[0x26], [0x93, 0x20],
                      wrong_select_frame]).cfg.uid_size.val)]] }) :=
  ⟨⟨rfl, rfl, by decide,
    (selection_rejects_wrong_frame (aabbccdd_active [[0x30]]) [0x30] [] [] [] rfl).1
      rfl (by decide)⟩,
   ⟨rfl, by decide, by decide, by decide,
    (selection_rejects_wrong_frame (aabbccdd_active [[0x26], [0x93, 0x70]])
      [0x26] [0x93, 0x70] [] [] rfl).2.1 rfl (by decide) (by decide) (by decide)⟩,
   ⟨rfl, by decide, by decide, Or.inr ⟨3, by decide, by decide, by decide⟩,
    (selection_rejects_wrong_frame (aabbccdd_active [[0x26], [0x93, 0x20], wrong_select_frame])
      [0x26] [0x93, 0x20] wrong_select_frame [] rfl).2.2 rfl (by decide) (by decide) (by decide)
      (by decide) (Or.inr ⟨3, by decide, by decide, by decide⟩)⟩⟩

/-! ## C15, C16: authentication and protocol NACK -/

theorem crc_bytes_token : crc_bytes (mifare_crc [0x00, 0x00, 0x00, 0x00]) = [0x00, 0x56] := by
  decide

theorem crc_bytes_nack : crc_bytes (mifare_crc [0x04]) = [0xDA, 0x17] := by decide

theorem crc_bytes_ack : crc_bytes (mifare_crc [0x0A]) = [0xA4, 0xFE] := by decide

theorem auth_response (s : FwState) (command : List Byte) (hlen : command.length ≥ 4)
    (hop : command.getD 0 0 = 0x60 ∨ command.getD 0 0 = 0x61) :
    handle_mifare_classic_command s command =
      .ok { s with tx := s.tx ++
        [if (command.getD 1 0).val / 4 < s.cfg.sector_count.val
         then [0x00, 0x00, 0x00, 0x00, 0x00, 0x56] else [0x04, 0xDA, 0x17]] } := by
  unfold handle_mifare_classic_command
  dsimp only
  rw [if_neg (by omega), if_pos hop, if_pos hlen]
  by_cases h : (command.getD 1 0).val / 4 < s.cfg.sector_count.val
  · rw [if_pos h, if_pos h]
    simp only [send_mifare_response, send_response, crc_bytes_token]
    rfl
  · rw [if_neg h, if_neg h]
    simp only [send_mifare_response, send_response, crc_bytes_nack]
    rfl

/-- C15 (counterexample): the 2-byte Auth frame 60 00 on a card with two
sectors draws no response. -/
theorem short_auth_frame_unanswered :
    tx_of (handle_mifare_classic_command write_read_state [0x60, 0x00]) = some [] := by
  decide

/-- C15 (amended): an Auth frame of at least 4 bytes (first byte 0x60 or
0x61, second byte the block address `a`) is always answered, with
00 00 00 00 plus CRC when `a / 4 < sector_count` and with the NACK 04 plus
CRC otherwise, and nothing but the list of sent frames changes.  A second run
on a state with the same `sector_count` and a frame with the same block
address (other opcode, other key bytes, other stored keys) sends the same
frame. -/
theorem auth_ignores_keys (s s1 : FwState) (command command1 : List Byte)
    (hlen : command.length ≥ 4)
    (hop : command.getD 0 0 = 0x60 ∨ command.getD 0 0 = 0x61)
    (hlen1 : command1.length ≥ 4)
    (hop1 : command1.getD 0 0 = 0x60 ∨ command1.getD 0 0 = 0x61)
    (haddr : command1.getD 1 0 = command.getD 1 0)
    (hcount : s1.cfg.sector_count = s.cfg.sector_count) :
    handle_mifare_classic_command s command =
      .ok { s with tx := s.tx ++
        [if (command.getD 1 0).val / 4 < s.cfg.sector_count.val
         then [0x00, 0x00, 0x00, 0x00, 0x00, 0x56] else [0x04, 0xDA, 0x17]] } ∧
    handle_mifare_classic_command s1 command1 =
      .ok { s1 with tx := s1.tx ++
        [if (command.getD 1 0).val / 4 < s.cfg.sector_count.val
         then [0x00, 0x00, 0x00, 0x00, 0x00, 0x56] else [0x04, 0xDA, 0x17]] } := by
  refine ⟨auth_response s command hlen hop, ?_⟩
  rw [auth_response s1 command1 hlen1 hop1, haddr, hcount]

/-- C15 (amended) at a concrete input: KeyA frame with key bytes FF.. on the
zero-key card against KeyB frame with key bytes 00.. on a card with other
keys, both for block address 4. -/
theorem auth_ignores_keys_witness :
    (([0x60, 0x04, 0xFF, 0xFF, 0xFF, 0xFF, 0xFF, 0xFF] : List Byte).length ≥ 4 ∧
      (([0x60, 0x04, 0xFF, 0xFF, 0xFF, 0xFF, 0xFF, 0xFF] : List Byte).getD 0 0 = 0x60 ∨
        ([0x60, 0x04, 0xFF, 0xFF, 0xFF, 0xFF, 0xFF, 0xFF] : List Byte).getD 0 0 = 0x61) ∧
      ([0x61, 0x04, 0x00, 0x00, 0x00, 0x00, 0x00, 0x00] : List Byte).length ≥ 4 ∧
      (([0x61, 0x04, 0x00, 0x00, 0x00, 0x00, 0x00, 0x00] : List Byte).getD 0 0 = 0x60 ∨
        ([0x61, 0x04, 0x00, 0x00, 0x00, 0x00, 0x00, 0x00] : List Byte).getD 0 0 = 0x61) ∧
      ([0x61, 0x04, 0x00, 0x00, 0x00, 0x00, 0x00, 0x00] : List Byte).getD 1 0 =
        ([0x60, 0x04, 0xFF, 0xFF, 0xFF, 0xFF, 0xFF, 0xFF] : List Byte).getD 1 0 ∧
      other_keys_state.cfg.sector_count = write_read_state.cfg.sector_count) ∧
    (handle_mifare_classic_command write_read_state
        [0x60, 0x04, 0xFF, 0xFF, 0xFF, 0xFF, 0xFF, 0xFF] =
      .ok { write_read_state with tx := write_read_state.tx ++
        [if (([0x60, 0x04, 0xFF, 0xFF, 0xFF, 0xFF, 0xFF, 0xFF] : List Byte).getD 1 0).val / 4 <
            write_read_state.cfg.sector_count.val
         then [0x00, 0x00, 0x00, 0x00, 0x00, 0x56] else [0x04, 0xDA, 0x17]] } ∧
    handle_mifare_classic_command other_keys_state
        [0x61, 0x04, 0x00, 0x00, 0x00, 0x00, 0x00, 0x00] =
      .ok { other_keys_state with tx := other_keys_state.tx ++
        [if (([0x60, 0x04, 0xFF, 0xFF, 0xFF, 0xFF, 0xFF, 0xFF] : List Byte).getD 1 0).val / 4 <
            write_read_state.cfg.sector_count.val
         then [0x00, 0x00, 0x00, 0x00, 0x00, 0x56] else [0x04, 0xDA, 0x17]] }) :=
  ⟨⟨by decide, by decide, by decide, by decide, by decide, rfl⟩,
   auth_ignores_keys write_read_state other_keys_state
     [0x60, 0x04, 0xFF, 0xFF, 0xFF, 0xFF, 0xFF, 0xFF]
     [0x61, 0x04, 0x00, 0x00, 0x00, 0x00, 0x00, 0x00]
     (by decide) (by decide) (by decide) (by decide) (by decide) rfl⟩

theorem read_out_of_range (s : FwState) (a : Byte)
    (h : s.cfg.sector_count.val ≤ a.val / 4) :
    handle_mifare_classic_command s [0x30, a] =
      .ok { s with tx := s.tx ++ [[0x04, 0xDA, 0x17]] } := by
  unfold handle_mifare_classic_command
  dsimp only
  rw [if_neg (by simp), if_neg (by simp), if_pos (by simp), if_pos (by simp),
    if_neg (by simp only [List.getD_cons_succ, List.getD_cons_zero]; omega)]
  simp only [send_mifare_response, send_response, crc_bytes_nack]
  rfl

theorem unknown_opcode (s : FwState) (f : List Byte) (hlen : f.length ≥ 1)
    (hop : f.getD 0 0 ≠ 0x60 ∧ f.getD 0 0 ≠ 0x61 ∧ f.getD 0 0 ≠ 0x30 ∧ f.getD 0 0 ≠ 0xA0) :
    handle_mifare_classic_command s f =
      .ok { s with tx := s.tx ++ [[0x04, 0xDA, 0x17]] } := by
  unfold handle_mifare_classic_command
  dsimp only
  rw [if_neg (by omega), if_neg (fun h => h.elim hop.1 hop.2.1), if_neg hop.2.2.1, if_neg hop.2.2.2]
  simp only [send_mifare_response, send_response, crc_bytes_nack]
  rfl

theorem getD_take_command (f : List Byte) (k : Nat) (hk : k < 256) :
    (f.take MAX_COMMAND_SIZE).getD k 0 = f.getD k 0 := by
  by_cases h : k < f.length
  · rw [List.getD_eq_getElem _ _ (by simp only [List.length_take, MAX_COMMAND_SIZE]; omega),
      List.getD_eq_getElem _ _ h, List.getElem_take]
  · rw [List.getD_eq_default _ _ (by simp only [List.length_take]; omega),
      List.getD_eq_default _ _ (by omega)]

/-- C16: a Read frame `[0x30, a]` with `a / 4 ≥ sector_count`, and every
non-empty frame whose first byte is none of 0x60, 0x61, 0x30, 0xA0, is
answered with the one frame 04 DA 17 (the NACK byte and its CRC) and changes
nothing else; in the session loop with SAK 0x08 such a frame is followed by
the hand-over of the next non-empty frame to the MIFARE Classic handler. -/
theorem protocol_nack (s : FwState) (a : Byte) (f g : List Byte) (rest : List (List Byte))
    (n : Nat) :
    (s.cfg.sector_count.val ≤ a.val / 4 →
      handle_mifare_classic_command s [0x30, a] =
        .ok { s with tx := s.tx ++ [[0x04, 0xDA, 0x17]] }) ∧
    (f.length ≥ 1 →
      (f.getD 0 0 ≠ 0x60 ∧ f.getD 0 0 ≠ 0x61 ∧ f.getD 0 0 ≠ 0x30 ∧ f.getD 0 0 ≠ 0xA0) →
      handle_mifare_classic_command s f =
        .ok { s with tx := s.tx ++ [[0x04, 0xDA, 0x17]] }) ∧
    (s.cfg.sak = 0x08 → s.rx = f :: g :: rest →
      ((f = [0x30, a] ∧ s.cfg.sector_count.val ≤ a.val / 4) ∨
        (f.length ≥ 1 ∧ f.getD 0 0 ≠ 0x60 ∧ f.getD 0 0 ≠ 0x61 ∧ f.getD 0 0 ≠ 0x30 ∧
          f.getD 0 0 ≠ 0xA0)) →
      g.length ≥ 1 →
      selected_loop (n + 2) s =
        match handle_mifare_classic_command
          { s with
            rx := rest
            cmdbuf := load_frame (load_frame s.cmdbuf f) g
            tx := s.tx ++ [[0x04, 0xDA, 0x17]] }
          (g.take MAX_COMMAND_SIZE) with
        | .ok s2 => selected_loop n s2
        | .error e => .error e) := by
  refine ⟨read_out_of_range s a, unknown_opcode s f, ?_⟩
  intro hsak hrx hf hg
  have hf1 : f.length ≥ 1 := by
    rcases hf with ⟨e, _⟩ | ⟨h, _⟩
    · rw [e]; simp
    · exact h
  have hnack : handle_mifare_classic_command (deliver s f (g :: rest)) (f.take MAX_COMMAND_SIZE) =
      .ok { deliver s f (g :: rest) with
            tx := (deliver s f (g :: rest)).tx ++ [[0x04, 0xDA, 0x17]] } := by
    rcases hf with ⟨e, h⟩ | ⟨h, hop⟩
    · subst e
      exact read_out_of_range _ a h
    · apply unknown_opcode _ _ ((length_take_command f 1 (by decide)).2 h)
      rw [getD_take_command f 0 (by decide)]
      exact hop
  have step : ∀ (m : Nat) (t : FwState) (c : List Byte) (r : List (List Byte)),
      t.cfg.sak = 0x08 → t.rx = c :: r → c.length ≥ 1 →
      selected_loop (m + 1) t =
        match handle_mifare_classic_command (deliver t c r) (c.take MAX_COMMAND_SIZE) with
        | .ok s2 => selected_loop m s2
        | .error e => .error e := by
    intro m t c r ht hr hc
    rw [selected_loop]
    simp only [receive_deliver t c r hr]
    rw [if_pos (show (c.take MAX_COMMAND_SIZE).length > 0 from
        (length_take_command c 1 (by decide)).2 hc),
      if_pos (show (deliver t c r).cfg.sak = 0x08 from ht)]
  rw [step (n + 1) s f (g :: rest) hsak hrx hf1, hnack]
  dsimp only
  rw [step n { deliver s f (g :: rest) with
               tx := (deliver s f (g :: rest)).tx ++ [[0x04, 0xDA, 0x17]] } g rest hsak rfl hg]
  rfl

/-- C16 at concrete inputs, card with two sectors: Read of block 8; the frame
50 00; the session with the frames 50 00 and 30 00 pending. -/
theorem protocol_nack_witness :
    (write_read_state.cfg.sector_count.val ≤ (0x08 : Byte).val / 4 ∧
      handle_mifare_classic_command write_read_state [0x30, 0x08] =
        .ok { write_read_state with tx := write_read_state.tx ++ [[0x04, 0xDA, 0x17]] }) ∧
    (([0x50, 0x00] : List Byte).length ≥ 1 ∧
      (([0x50, 0x00] : List Byte).getD 0 0 ≠ 0x60 ∧ ([0x50, 0x00] : List Byte).getD 0 0 ≠ 0x61 ∧
        ([0x50, 0x00] : List Byte).getD 0 0 ≠ 0x30 ∧
        ([0x50, 0x00] : List Byte).getD 0 0 ≠ 0xA0) ∧
      handle_mifare_classic_command write_read_state [0x50, 0x00] =
        .ok { write_read_state with tx := write_read_state.tx ++ [[0x04, 0xDA, 0x17]] }) ∧
    (session_state.cfg.sak = 0x08 ∧ session_state.rx = [0x50, 0x00] :: [0x30, 0x00] :: [] ∧
      ([0x30, 0x00] : List Byte).length ≥ 1 ∧
      selected_loop (1 + 2) session_state =
        match handle_mifare_classic_command
          { session_state with
            rx := []
            cmdbuf := load_frame (load_frame session_state.cmdbuf [0x50, 0x00]) [0x30, 0x00]
            tx := session_state.tx ++ [[0x04, 0xDA, 0x17]] }
          (([0x30, 0x00] : List Byte).take MAX_COMMAND_SIZE) with
        | .ok s2 => selected_loop 1 s2
        | .error e => .error e) :=
  ⟨⟨by decide,
    (protocol_nack write_read_state 0x08 [] [] [] 0).1 (by decide)⟩,
   ⟨by decide, by decide,
    (protocol_nack write_read_state 0x00 [0x50, 0x00] [] [] 0).2.1 (by decide) (by decide)⟩,
   ⟨rfl, rfl, by decide,
    (protocol_nack session_state 0x00 [0x50, 0x00] [0x30, 0x00] [] 1).2.2 rfl rfl
      (Or.inr (by decide)) (by decide)⟩⟩

/-! ## C17, C18: recovery and the effect of Write -/

/-- Emergency recovery sends nothing, takes no frame and leaves the zero
configuration. -/
theorem recovery_zeroes (s : FwState) :
    (emergency_firmware_recovery s).cfg = zero_config ∧
    (emergency_firmware_recovery s).tx = s.tx ∧
    (emergency_firmware_recovery s).rx = s.rx ∧
    (emergency_firmware_recovery s).cmdbuf = s.cmdbuf :=
  ⟨rfl, rfl, rfl, rfl⟩

set_option maxRecDepth 100000 in
/-- C17 (code at the failing input): recovery from a card with keys, two
sectors and SAK 08 sends nothing and zeroes the configuration; the one-sector
configuration applied next is answered with status 0x00 and stores SAK 08,
ATQA 0004 and sector count 1, but block 3 of sector 0 ends with the 4 bytes
that lay behind the command in memory, which are not payload bytes. -/
theorem recovery_then_configure_past_payload :
    (emergency_firmware_recovery other_keys_state).tx = other_keys_state.tx ∧
    (emergency_firmware_recovery other_keys_state).cfg.sector_count = 0 ∧
    (emergency_firmware_recovery other_keys_state).cfg.sak = 0 ∧
    List.ofFn ((emergency_firmware_recovery other_keys_state).cfg.sectors 0).key_a =
      List.replicate 6 0x00 ∧
    (process_host_command (emergency_firmware_recovery other_keys_state)
      (mem_of_list one_sector_command 0xEE) 81).tx = other_keys_state.tx ++ [[0x24, 0x00]] ∧
    (process_host_command (emergency_firmware_recovery other_keys_state)
      (mem_of_list one_sector_command 0xEE) 81).cfg.sak = 0x08 ∧
    (process_host_command (emergency_firmware_recovery other_keys_state)
      (mem_of_list one_sector_command 0xEE) 81).cfg.atqa = 0x0004 ∧
    (process_host_command (emergency_firmware_recovery other_keys_state)
      (mem_of_list one_sector_command 0xEE) 81).cfg.sector_count = 1 ∧
    List.ofFn (((process_host_command (emergency_firmware_recovery other_keys_state)
      (mem_of_list one_sector_command 0xEE) 81).cfg.sectors 0).blocks 3) =
        List.replicate 12 0x11 ++ List.replicate 4 0xEE := by
  decide

set_option maxRecDepth 100000 in
/-- C18 (code at the failing input): on the card with `sector_count = 255`
the Write frame A0 A0 (sector 40, block 0) with 16 data bytes passes the
range check and indexes the 40-sector array out of bounds, while the same
frame on a card with two sectors is answered with ACK and NACK. -/
theorem write_beyond_sector_array :
    oversized_state.cfg.sector_count = 0xFF ∧
    tx_of (handle_mifare_classic_command oversized_state [0xA0, 0xA0]) = none ∧
    tx_of (handle_mifare_classic_command write_read_state [0xA0, 0xA0]) =
      some [[0x0A, 0xA4, 0xFE], [0x04, 0xDA, 0x17]] := by
  decide

theorem receive_after_send (s : FwState) (frame : List Byte) :
    receive_command (send_response s frame) =
      ({ (receive_command s).1 with tx := s.tx ++ [frame] }, (receive_command s).2) := by
  unfold receive_command send_response
  cases h : s.rx with
  | nil => simp only [h]
  | cons f rest => simp only [h]

/-- The complete effect of a Write frame (at least 2 bytes, first byte A0,
second byte the block address): ACK first; then nothing when the data receive
yields fewer than 16 bytes, NACK when the sector is not below `sector_count`,
and, when it is, the block overwritten with the first 16 received bytes and a
second ACK if the sector is below 40, an access outside the sector array if
not.  Nothing else changes but the queue and buffer of received frames. -/
theorem write_effect (s : FwState) (command : List Byte) (hlen : command.length ≥ 2)
    (hop : command.getD 0 0 = 0xA0) :
    ((receive_command s).2.length < 16 →
      handle_mifare_classic_command s command =
        .ok { (receive_command s).1 with tx := s.tx ++ [[0x0A, 0xA4, 0xFE]] }) ∧
    ((receive_command s).2.length ≥ 16 →
      s.cfg.sector_count.val ≤ (command.getD 1 0).val / 4 →
      handle_mifare_classic_command s command =
        .ok { (receive_command s).1 with
              tx := s.tx ++ [[0x0A, 0xA4, 0xFE], [0x04, 0xDA, 0x17]] }) ∧
    ((receive_command s).2.length ≥ 16 →
      (command.getD 1 0).val / 4 < s.cfg.sector_count.val →
      ∀ h40 : (command.getD 1 0).val / 4 < MAX_SECTOR_COUNT,
      handle_mifare_classic_command s command =
        .ok { (receive_command s).1 with
              tx := s.tx ++ [[0x0A, 0xA4, 0xFE], [0x0A, 0xA4, 0xFE]]
              cfg := { s.cfg with
                sectors := Function.update s.cfg.sectors ⟨(command.getD 1 0).val / 4, h40⟩
                  { s.cfg.sectors ⟨(command.getD 1 0).val / 4, h40⟩ with
                    blocks := Function.update
                      (s.cfg.sectors ⟨(command.getD 1 0).val / 4, h40⟩).blocks
                      ⟨(command.getD 1 0).val % 4, Nat.mod_lt _ (by decide)⟩
                      (fun j => (receive_command s).1.cmdbuf
                        (Fin.castLE (by decide) j)) } } }) ∧
    ((receive_command s).2.length ≥ 16 →
      (command.getD 1 0).val / 4 < s.cfg.sector_count.val →
      MAX_SECTOR_COUNT ≤ (command.getD 1 0).val / 4 →
      handle_mifare_classic_command s command = .error Fault.out_of_bounds) := by
  have hb : (command.getD 1 0).val % 4 < 4 := Nat.mod_lt _ (by decide)
  have hne : ¬ (command.getD 0 0 = 0x60 ∨ command.getD 0 0 = 0x61) := by
    rw [hop]; decide
  have hne2 : ¬ (command.getD 0 0 = 0x30) := by
    rw [hop]; decide
  have hstart : handle_mifare_classic_command s command =
      (if (receive_command s).2.length ≥ 16 then
        if (command.getD 1 0).val / 4 < s.cfg.sector_count.val ∧
            (command.getD 1 0).val % 4 < 4 then
          if h : (command.getD 1 0).val / 4 < MAX_SECTOR_COUNT then
            .ok (send_mifare_response
              { ({ (receive_command s).1 with tx := s.tx ++ [[0x0A, 0xA4, 0xFE]] } : FwState) with
                cfg := { s.cfg with
                  sectors := Function.update s.cfg.sectors ⟨(command.getD 1 0).val / 4, h⟩
                    { s.cfg.sectors ⟨(command.getD 1 0).val / 4, h⟩ with
                      blocks := Function.update
                        (s.cfg.sectors ⟨(command.getD 1 0).val / 4, h⟩).blocks
                        ⟨(command.getD 1 0).val % 4, Nat.mod_lt _ (by decide)⟩
                        (fun j => (receive_command s).1.cmdbuf
                          (Fin.castLE (by decide) j)) } } }
              [0x0A])
          else .error Fault.out_of_bounds
        else .ok (send_mifare_response
          { (receive_command s).1 with tx := s.tx ++ [[0x0A, 0xA4, 0xFE]] } [0x04])
      else .ok { (receive_command s).1 with tx := s.tx ++ [[0x0A, 0xA4, 0xFE]] }) := by
    unfold handle_mifare_classic_command
    dsimp only
    rw [if_neg (by omega), if_neg hne, if_neg hne2, if_pos hop, if_pos hlen]
    simp only [send_mifare_response, crc_bytes_ack, receive_after_send, receive_command_cfg,
      List.singleton_append, List.cons_append, List.nil_append]
  refine ⟨?_, ?_, ?_, ?_⟩
  · intro h
    rw [hstart, if_neg (by omega)]
  · intro h hc
    rw [hstart, if_pos h, if_neg (by omega)]
    simp only [send_mifare_response, send_response, crc_bytes_nack, List.append_assoc,
      List.singleton_append, List.cons_append, List.nil_append]
  · intro h hc h40
    rw [hstart, if_pos h, if_pos ⟨hc, hb⟩, dif_pos h40]
    simp only [send_mifare_response, send_response, crc_bytes_ack, List.append_assoc,
      List.singleton_append, List.cons_append, List.nil_append]
  · intro h hc h40
    rw [hstart, if_pos h, if_pos ⟨hc, hb⟩, dif_neg (by omega)]

/-- What an accepted configuration does (valid header, `n ≤ 40` declared
sectors, exactly `n` 75-byte records): status 0x00, the header fields stored,
sectors `n` and up untouched, and each sector below `n` overwritten with the
79 bytes of memory that start at its 75-byte record. -/
theorem configure_accepted (s : FwState) (command : Nat → Byte) (length : Word) (n : Nat)
    (hc : command 0 = CMD_CONFIG_EMULATION)
    (hu : (command 1).val ≤ 10)
    (hn : (command (1 + ((command 1).val + 4))).val = n) (hn40 : n ≤ 40)
    (hl : length.val = ((command 1).val + 5 + 75 * n) + 1) :
    process_host_command s command length =
      { s with
        cfg := { config_header s.cfg (fun i => command (1 + i)) with
          sectors := fun j => if j.val < n
            then copy_sector (s.cfg.sectors j) (fun i => command (1 + i))
              ((command 1).val + 5 + 75 * j.val)
            else s.cfg.sectors j }
        tx := s.tx ++ [[0x24, 0x00]] } := by
  have hn1 : (command (1 + (1 + (command (1 + 0)).val + 3))).val = n := by
    rw [← hn]; congr 2; simp only [Nat.add_zero]; omega
  have hsw := config_switch s (fun i => command (1 + i)) ((command 1).val + 5 + 75 * n) n
    (by simpa using hu) (by simp only [Nat.add_zero]; omega)
    (by dsimp only; rw [hn1]; omega) (by simp only [Nat.add_zero]; omega)
    (Or.inl (by dsimp only; rw [hn1]; omega))
  have hp := process_host_command_eq s command length _ hl
  rw [hc, hsw] at hp
  dsimp only at hp
  rw [hn1, if_pos (by omega)] at hp
  rw [hp]
  simp only [send_response, Nat.add_zero]

/-! ## C14: a truncated SELECT frame and the bytes left in the command buffer -/

set_option maxRecDepth 100000 in
/-- C14 (code at the failing input): the card has the 10-byte UID 01 02 04 08
10 20 40 80 1B 36 and the command buffer still holds the configuration
command behind its first byte.  After REQA and anticollision the 7-byte frame
93 70 01 02 04 08 10, which carries five UID bytes and lacks the other five,
passes the length check `command_length >= 7`; the comparison reads buffer
bytes 7..11, left there by the configuration command, and the SAK 08 is sent.
With a zeroed buffer the same frames draw no SAK. -/
theorem truncated_select_accepted :
    truncated_select_frame.length = 7 ∧
    stale_buffer_state.cfg.uid_size = 10 ∧
    stale_buffer_state.cfg.emulation_active = true ∧
    (∃ i : Fin MAX_UID_SIZE, i.val < stale_buffer_state.cfg.uid_size.val ∧
      truncated_select_frame.length ≤ 2 + i.val ∧
      truncated_select_frame.getD (2 + i.val) 0 ≠ stale_buffer_state.cfg.uid i) ∧
    tx_of (handle_rf_field_event stale_buffer_state) =
      some [[0x24, 0x00], [0x25, 0x00], [0x04, 0x00],
            [0x01, 0x02, 0x04, 0x08, 0x10, 0x20, 0x40, 0x80, 0x1B, 0x36, 0xD2], [0x08]] ∧
    tx_of (handle_rf_field_event { stale_buffer_state with cmdbuf := fun _ => 0x00 }) =
      some [[0x24, 0x00], [0x25, 0x00], [0x04, 0x00],
            [0x01, 0x02, 0x04, 0x08, 0x10, 0x20, 0x40, 0x80, 0x1B, 0x36, 0xD2]] := by
  decide

end NFCman
